import Mathlib

/-!
Verification development for the PNCP harvester script (`pncp.py`).

The repository bundles an out-of-scope desktop CRUD application and the
harvester script; everything below is a shallow embedding of the harvester.
Python `datetime`/`calendar` values are modelled by a `Date` structure with
the Gregorian leap rule, network traffic is modelled by deterministic
oracles (`server`, `respond`, `oracle`) standing for what `session.get`
returns or raises, float sleep durations are modelled as exact rationals,
and the module-level mutable `PAGE_SIZE_CACHE` dict is threaded as explicit
state.  Each function keeps the source's name where Lean allows it and its
doc comment cites the lines of `pncp.py` it translates.
-/

deriving instance DecidableEq for Except

namespace Pncp

/-! ### Calendar model (Python `datetime` / `calendar`) -/

/-- A calendar date, modelling a Python `datetime` restricted to its
`(year, month, day)` triple as used by `gerar_intervalos_mensais`. -/
structure Date where
  y : Nat
  m : Nat
  d : Nat
deriving DecidableEq

/-- Gregorian leap-year rule used by `calendar.monthrange`. -/
def isLeap (y : Nat) : Bool :=
  (y % 4 == 0 && y % 100 != 0) || y % 400 == 0

/-- Number of days of month `m` of year `y`; the second component of
Python's `calendar.monthrange(y, m)`. -/
def monthLength (y m : Nat) : Nat :=
  if m = 2 then (if isLeap y then 29 else 28)
  else if m = 4 ∨ m = 6 ∨ m = 9 ∨ m = 11 then 30
  else 31

/-- Numeric key `yyyymmdd` of a date.  For valid dates (month and day below
100) comparing keys agrees with Python's lexicographic `datetime` order and
with string comparison of the `"%Y%m%d"` forms. -/
def Date.key (x : Date) : Nat := x.y * 10000 + x.m * 100 + x.d

/-- The invariant `datetime` guarantees: month in `1..12`, day within the
month.  `datetime.strptime` raises on anything else. -/
def Date.Valid (x : Date) : Prop :=
  1 ≤ x.m ∧ x.m ≤ 12 ∧ 1 ≤ x.d ∧ x.d ≤ monthLength x.y x.m

instance (x : Date) : Decidable x.Valid := by
  unfold Date.Valid; infer_instance

/-- `current_date.replace(day=1)` (pncp.py line 104). -/
def monthStart (x : Date) : Date := ⟨x.y, x.m, 1⟩

/-- `current_date.replace(day=last_day)` (pncp.py lines 103-105). -/
def monthEnd (x : Date) : Date := ⟨x.y, x.m, monthLength x.y x.m⟩

/-- `x + timedelta(days=1)` (pncp.py line 109). -/
def nextDay (x : Date) : Date :=
  if x.d < monthLength x.y x.m then ⟨x.y, x.m, x.d + 1⟩
  else if x.m < 12 then ⟨x.y, x.m + 1, 1⟩
  else ⟨x.y + 1, 1, 1⟩

/-- Python `max` on two datetimes (ties keep the first argument). -/
def dmax (a b : Date) : Date := if b.key ≤ a.key then a else b

/-- Python `min` on two datetimes (ties keep the first argument). -/
def dmin (a b : Date) : Date := if a.key ≤ b.key then a else b

/-- Month counter `12*y + m`; it advances by exactly one when the loop of
`gerar_intervalos_mensais` steps to the first day of the next month, which
bounds the number of iterations of the `while` loop. -/
def monthIdx (x : Date) : Nat := x.y * 12 + x.m

/-- The `while current_date <= end_date` loop of `gerar_intervalos_mensais`
(pncp.py lines 101-109).  The loop always advances `current_date` to the
first day of the next month, so `monthIdx ed + 1 - monthIdx cd` iterations
always suffice; the structural `fuel` argument is initialised to exactly
that bound by `gerarIntervalos` and the coverage theorem below proves the
produced windows already reach `end_date`, so the bound never truncates. -/
def gerarIntervalosLoop (sd ed : Date) : Nat → Date → List (Date × Date)
  | 0, _ => []
  | fuel + 1, cd =>
    if cd.key ≤ ed.key then
      (dmax sd (monthStart cd), dmin ed (monthEnd cd)) ::
        gerarIntervalosLoop sd ed fuel (nextDay (monthEnd cd))
    else []

/-- Core of `gerar_intervalos_mensais` (pncp.py lines 96-110) on parsed
dates. -/
def gerarIntervalos (sd ed : Date) : List (Date × Date) :=
  gerarIntervalosLoop sd ed (monthIdx ed + 1 - monthIdx sd) sd

/-- Value of a decimal digit character, `none` on anything else. -/
def digitsToNat (acc : Nat) : List Char → Option Nat
  | [] => some acc
  | c :: rest =>
    if '0' ≤ c ∧ c ≤ '9' then digitsToNat (acc * 10 + (c.toNat - '0'.toNat)) rest
    else none

/-- `datetime.strptime(s, "%Y%m%d")` on an 8-character string: four year
digits, two month digits, two day digits, with the month and day ranges
checked (Python raises `ValueError` on failure, modelled as `none`). -/
def parseDate8 (s : String) : Option Date :=
  match s.data with
  | [y1, y2, y3, y4, m1, m2, d1, d2] =>
    match digitsToNat 0 [y1, y2, y3, y4], digitsToNat 0 [m1, m2], digitsToNat 0 [d1, d2] with
    | some y, some m, some d =>
      if 1 ≤ m ∧ m ≤ 12 ∧ 1 ≤ d ∧ d ≤ monthLength y m then some ⟨y, m, d⟩ else none
    | _, _, _ => none
  | _ => none

/-- Decimal digit character of `n % 10`. -/
def digitChar : Nat → Char
  | 0 => '0' | 1 => '1' | 2 => '2' | 3 => '3' | 4 => '4'
  | 5 => '5' | 6 => '6' | 7 => '7' | 8 => '8' | _ => '9'

/-- Two-digit zero-padded rendering, as in `strftime("%m")`/`strftime("%d")`. -/
def pad2chars (n : Nat) : List Char := [digitChar (n / 10 % 10), digitChar (n % 10)]

/-- Four-digit zero-padded rendering, as in `strftime("%Y")` for years up to 9999. -/
def pad4chars (n : Nat) : List Char :=
  [digitChar (n / 1000 % 10), digitChar (n / 100 % 10), digitChar (n / 10 % 10), digitChar (n % 10)]

/-- `strftime("%Y%m%d")` (pncp.py line 108). -/
def fmtDate8 (x : Date) : String := ⟨pad4chars x.y ++ pad2chars x.m ++ pad2chars x.d⟩

/-- `gerar_intervalos_mensais(data_inicial_str, data_final_str)`
(pncp.py lines 96-110): parse both `"%Y%m%d"` strings (a parse failure is a
raised `ValueError`, modelled as `none`), run the month loop, and format the
window bounds back to `"%Y%m%d"` strings. -/
def gerar_intervalos_mensais (s1 s2 : String) : Option (List (String × String)) :=
  match parseDate8 s1, parseDate8 s2 with
  | some sd, some ed =>
    some ((gerarIntervalos sd ed).map (fun w => (fmtDate8 w.1, fmtDate8 w.2)))
  | _, _ => none

/-! ### Python string helpers -/

/-- Whether the first list is an initial segment of the second. -/
def charsPre : List Char → List Char → Bool
  | [], _ => true
  | _ :: _, [] => false
  | a :: as, b :: bs => a = b && charsPre as bs

/-- Whether `n` occurs as a contiguous sublist of the second argument. -/
def charsSub (n : List Char) : List Char → Bool
  | [] => n.isEmpty
  | c :: rest => charsPre n (c :: rest) || charsSub n rest

/-- Python's substring test `needle in hay`. -/
def pyInStr (needle hay : String) : Bool := charsSub needle.data hay.data

/-- Python's character slicing `s[:n]`. -/
def strTake (s : String) (n : Nat) : String := ⟨s.data.take n⟩

/-- Python's `s.split(sep)` for a one-character separator (no collapsing of
adjacent separators; the empty string splits to `[""]`). -/
def splitChars (p : Char → Bool) : List Char → List (List Char)
  | [] => [[]]
  | c :: rest =>
    let r := splitChars p rest
    if p c then [] :: r
    else
      match r with
      | [] => [[c]]
      | g :: gs => (c :: g) :: gs

/-- String-level wrapper of `splitChars`. -/
def pySplit (s : String) (sep : Char) : List String :=
  (splitChars (fun ch => ch = sep) s.data).map (fun l => ⟨l⟩)

/-! ### HTTP retry client `get_with_backoff` (pncp.py lines 166-186)

The boundary modelled is `session.get`: the oracle `respond` gives, for the
`i`-th request issued by the loop, either a completed response (status,
final url, body text, and the `Retry-After` header the response may carry —
the source never reads any header, which the theorems below make precise)
or a transport-level exception (timeout, connection reset) raised by
`session.get` itself. -/

/-- What `session.get` produces for one attempt. -/
inductive TransportResult where
  | resp (status : Nat) (url : String) (body : String) (retryAfter : Option Nat)
  | exn
deriving DecidableEq

/-- How one call of `get_with_backoff` ends. -/
inductive GetOutcome where
  | ok (requestIndex : Nat)
  | httpError (msg : String)
  | transportError
deriving DecidableEq

/-- Observable trace of one `get_with_backoff` call: its outcome, how many
`session.get` requests it issued, and the backoff sleeps it performed. -/
structure GetTrace where
  outcome : GetOutcome
  requests : Nat
  sleeps : List ℚ
deriving DecidableEq

/-- `wait = (1.4 ** attempt) + attempt * 0.25` (pncp.py line 177), with the
float literals modelled as the exact rationals they denote; every comparison
made of these values below is robust to the rounding of binary floats. -/
def waitSeconds (attempt : Nat) : ℚ := (7 / 5 : ℚ) ^ attempt + attempt * (1 / 4)

/-- The message of the `requests.HTTPError` raised at lines 176 and 186:
`f"HTTP {status} em {url}\n{body[:1000]}"`. -/
def httpErrMsg (status : Nat) (url : String) (body : String) : String :=
  "HTTP " ++ toString status ++ " em " ++ url ++ "\n" ++ strTake body 1000

/-- The `while True` loop of `get_with_backoff` (pncp.py lines 168-186).
`i` is the index of the next request, `attempt` the retry counter so far,
and `remaining = max_retries - attempt` the retries still allowed: the
source increments `attempt` on each 429/5xx and raises once
`attempt > max_retries`, so `remaining` reaches the raise exactly when the
source does, and the recursion is structural.  A transport-level exception
from `session.get` is not caught anywhere in the function and propagates
immediately. -/
def getLoop (respond : Nat → TransportResult) (i attempt : Nat) (remaining : Nat) : GetTrace :=
  match respond i with
  | .exn => ⟨.transportError, 1, []⟩
  | .resp status url body _ =>
    if 200 ≤ status ∧ status < 300 then ⟨.ok i, 1, []⟩
    else if status = 429 ∨ (500 ≤ status ∧ status < 600) then
      match remaining with
      | 0 => ⟨.httpError (httpErrMsg status url body), 1, []⟩
      | r + 1 =>
        let t := getLoop respond (i + 1) (attempt + 1) r
        ⟨t.outcome, t.requests + 1, waitSeconds (attempt + 1) :: t.sleeps⟩
    else ⟨.httpError (httpErrMsg status url body), 1, []⟩

/-- `get_with_backoff(session, url, max_retries=4)` (pncp.py lines 166-186). -/
def get_with_backoff (respond : Nat → TransportResult) (max_retries : Nat) : GetTrace :=
  getLoop respond 0 0 max_retries

/-- Erase the `Retry-After` header of a response; used to state that
`get_with_backoff` never reads it. -/
def stripRA : TransportResult → TransportResult
  | .resp s u b _ => .resp s u b none
  | .exn => .exn

/-! ### Records, payloads, and the consultation endpoints -/

/-- The fields of a "contratação" record that the harvester reads
(pncp.py lines 560-570); `none` models an absent JSON key.  Numeric JSON
values are modelled by their rendered string forms, which is all the code
ever builds from them. -/
structure Rec where
  numeroControlePncp : Option String
  numeroControlePNCP : Option String
  orgCnpj : Option String
  anoCompra : Option String
  sequencialCompra : Option String
deriving DecidableEq

/-- Response envelope of the consultation endpoint: `totalPaginas`,
its tolerated alternative `totalPaginasConsulta`, and the `data` list
(pncp.py lines 316-317). -/
structure Payload where
  totalPaginas : Option Nat
  totalPaginasConsulta : Option Nat
  data : List Rec
deriving DecidableEq

/-- An exception escaping one `get_with_backoff` call: a `requests.HTTPError`
carrying status, url and body excerpt; any other exception (transport
failure) which `except requests.HTTPError` clauses do not catch; or the
`RuntimeError` of pncp.py line 311. -/
inductive FetchErr where
  | http (status : Nat) (url : String) (body : String)
  | transport
  | runtime
deriving DecidableEq

/-- `str(e)` of the `requests.HTTPError` raised by `get_with_backoff`. -/
def FetchErr.msgOf (status : Nat) (url : String) (body : String) : String :=
  httpErrMsg status url body

/-- The query parameters of one consultation request
(pncp.py lines 279-284, 288-290, 296-297). -/
structure PageParams where
  dataInicial : String
  dataFinal : String
  modalidade : Nat
  modo : Option Nat
  pagina : Nat
  tamanhoPagina : Option Nat
deriving DecidableEq

/-- Build the parameter set; `tamanhoPagina` is included only when the page
size is not `None`. -/
def mkParams (dIni dFim : String) (modalidade : Nat) (modo : Option Nat)
    (pagina : Nat) (ps : Option Nat) : PageParams :=
  ⟨dIni, dFim, modalidade, modo, pagina, ps⟩

/-- The module-level dict `PAGE_SIZE_CACHE : (modalidade, modo) → int|None`
(pncp.py line 27), threaded as explicit state. -/
def PSCache : Type := List ((Nat × Option Nat) × Option Nat)

/-- Dict membership plus access, `key in PAGE_SIZE_CACHE` / `PAGE_SIZE_CACHE[key]`. -/
def psLookup (k : Nat × Option Nat) : PSCache → Option (Option Nat)
  | [] => none
  | e :: rest => if k = e.1 then some e.2 else psLookup k rest

/-- `PAGE_SIZE_CANDIDATES = [50]` (pncp.py line 26), values of type
`int|None` since the loop tolerates a `None` candidate. -/
def PAGE_SIZE_CANDIDATES : List (Option Nat) := [some 50]

/-- The classification made by the `except requests.HTTPError` clause of
`fetch_page_with_pagesize` (pncp.py lines 305-309):
`"Tamanho de página inválido" in msg or "400" in msg`. -/
def isSizeRetryMsg (msg : String) : Bool :=
  pyInStr "Tamanho de página inválido" msg || pyInStr "400" msg

/-- The `for ps in PAGE_SIZE_CANDIDATES` loop of `fetch_page_with_pagesize`
(pncp.py lines 293-311), parameterised by the candidate list it iterates.
`server` gives the deterministic verdict of `get_with_backoff` for a
parameter set; `baseP ps` is `dict(base_params)` extended with the
candidate page size.  Returns the result, the updated cache, and the number
of `get_with_backoff` calls issued (each of which performs at least one
network request).  On success the accepted size is cached for `key`; an
`HTTPError` whose text passes `isSizeRetryMsg` becomes `last_err` and the
next candidate is tried; any other `HTTPError` is re-raised; a non-`HTTPError`
exception is not caught at all; an exhausted candidate list raises
`last_err` (or `RuntimeError` if no candidate existed). -/
def negotiateLoop (server : PageParams → Except FetchErr Payload)
    (baseP : Option Nat → PageParams) (key : Nat × Option Nat)
    (cache : PSCache) (lastErr : Option FetchErr) :
    List (Option Nat) → Except FetchErr Payload × PSCache × Nat
  | [] => (.error (match lastErr with | some e => e | none => .runtime), cache, 0)
  | ps :: rest =>
    match server (baseP ps) with
    | .ok payload => (.ok payload, ((key, ps) :: cache : PSCache), 1)
    | .error (.http s u b) =>
      if isSizeRetryMsg (FetchErr.msgOf s u b) then
        let r := negotiateLoop server baseP key cache (some (.http s u b)) rest
        (r.1, r.2.1, r.2.2 + 1)
      else (.error (.http s u b), cache, 1)
    | .error e => (.error e, cache, 1)

/-- `fetch_page_with_pagesize(session, pagina, data_ini, data_fim,
modalidade, modo)` (pncp.py lines 276-311): on a cache hit issue a single
request with the cached size; otherwise run the negotiation loop over
`PAGE_SIZE_CANDIDATES`. -/
def fetch_page_with_pagesize (server : PageParams → Except FetchErr Payload)
    (cache : PSCache) (pagina : Nat) (dIni dFim : String)
    (modalidade : Nat) (modo : Option Nat) :
    Except FetchErr Payload × PSCache × Nat :=
  let key := (modalidade, modo)
  let baseP := fun ps => mkParams dIni dFim modalidade modo pagina ps
  match psLookup key cache with
  | some ps => (server (baseP ps), cache, 1)
  | none => negotiateLoop server baseP key cache none PAGE_SIZE_CANDIDATES

/-- Python's `a or b` chain on page-count fields, where both `None` and `0`
are falsy (pncp.py line 316). -/
def pyOrNat (a : Option Nat) (b : Nat) : Nat :=
  match a with
  | some n => if n = 0 then b else n
  | none => b

/-- `discover_total_pages_for_modalidade` (pncp.py lines 313-320): fetch
page 1, read `totalPaginas or totalPaginasConsulta or 1` and the first
page's records. -/
def discover_total_pages_for_modalidade (server : PageParams → Except FetchErr Payload)
    (cache : PSCache) (dIni dFim : String) (modalidade : Nat) (modo : Option Nat) :
    Except FetchErr (Nat × List Rec) × PSCache × Nat :=
  match fetch_page_with_pagesize server cache 1 dIni dFim modalidade modo with
  | (.ok payload, c, n) =>
    (.ok (pyOrNat payload.totalPaginas (pyOrNat payload.totalPaginasConsulta 1), payload.data), c, n)
  | (.error e, c, n) => (.error e, c, n)

/-- The per-page loop of `fetch_all_pages_for_modalidade`
(pncp.py lines 327-336).  The thread pool's completion order is
nondeterministic and the caller treats the record set as unordered; the
model collects results in submission order.  The `except Exception` clause
drops a failed page and continues. -/
def pagesFold (server : PageParams → Except FetchErr Payload)
    (dIni dFim : String) (modalidade : Nat) (modo : Option Nat) :
    PSCache → List Nat → List Rec × PSCache × Nat
  | c, [] => ([], c, 0)
  | c, p :: ps =>
    match fetch_page_with_pagesize server c p dIni dFim modalidade modo with
    | (.ok payload, c1, n) =>
      let r := pagesFold server dIni dFim modalidade modo c1 ps
      (payload.data ++ r.1, r.2.1, n + r.2.2)
    | (.error _, c1, n) =>
      let r := pagesFold server dIni dFim modalidade modo c1 ps
      (r.1, r.2.1, n + r.2.2)

/-- `fetch_all_pages_for_modalidade(session, total_pages, ...)`
(pncp.py lines 322-337): nothing to do when `total_pages <= 1`, else fetch
pages `2..total_pages`, dropping failed pages. -/
def fetch_all_pages_for_modalidade (server : PageParams → Except FetchErr Payload)
    (cache : PSCache) (total_pages : Nat) (dIni dFim : String)
    (modalidade : Nat) (modo : Option Nat) : List Rec × PSCache × Nat :=
  if total_pages ≤ 1 then ([], cache, 0)
  else pagesFold server dIni dFim modalidade modo cache (List.range' 2 (total_pages - 1))

/-- The discovery loop of `fetch_contratacoes_multi_modalidade`
(pncp.py lines 342-347): per modalidade, discover the page count and page 1;
an `except Exception` clause drops the modalidade on failure. -/
def discoverFold (server : PageParams → Except FetchErr Payload)
    (dIni dFim : String) (modo : Option Nat) :
    PSCache → List Nat → List (Nat × Nat × List Rec) × PSCache × Nat
  | c, [] => ([], c, 0)
  | c, m :: ms =>
    match discover_total_pages_for_modalidade server c dIni dFim m modo with
    | (.ok (total, page1), c1, n) =>
      let r := discoverFold server dIni dFim modo c1 ms
      ((m, total, page1) :: r.1, r.2.1, n + r.2.2)
    | (.error _, c1, n) =>
      let r := discoverFold server dIni dFim modo c1 ms
      (r.1, r.2.1, n + r.2.2)

/-- The collection loop of `fetch_contratacoes_multi_modalidade`
(pncp.py lines 349-352): extend with page 1 then with the remaining pages. -/
def collectFold (server : PageParams → Except FetchErr Payload)
    (dIni dFim : String) (modo : Option Nat) :
    PSCache → List (Nat × Nat × List Rec) → List Rec × PSCache × Nat
  | c, [] => ([], c, 0)
  | c, e :: ds =>
    let fa := fetch_all_pages_for_modalidade server c e.2.1 dIni dFim e.1 modo
    let r := collectFold server dIni dFim modo fa.2.1 ds
    (e.2.2 ++ fa.1 ++ r.1, r.2.1, fa.2.2 + r.2.2)

/-- `fetch_contratacoes_multi_modalidade(session, data_ini, data_fim,
modalidades, modo)` (pncp.py lines 339-354), the per-window fetch
operation.  Returns the collected records, the page-size cache after the
call, and the total number of `get_with_backoff` calls issued. -/
def fetch_contratacoes_multi_modalidade (server : PageParams → Except FetchErr Payload)
    (cache : PSCache) (dIni dFim : String) (modalidades : List Nat)
    (modo : Option Nat) : List Rec × PSCache × Nat :=
  let d := discoverFold server dIni dFim modo cache modalidades
  let r := collectFold server dIni dFim modo d.2.1 d.1
  (r.1, r.2.1, d.2.2 + r.2.2)

/-- States of `PAGE_SIZE_CACHE` reachable from the empty initial dict: the
only value ever stored is the single candidate `50` (pncp.py lines 26, 301). -/
def psCacheInv (c : PSCache) : Prop :=
  ∀ k v, psLookup k c = some v → v = some 50

/-! ### Reference forms of the pagination results (derived, used only in
theorem statements) -/

/-- Concatenation of the images of `f`. -/
def flatCollect {α β : Type} (f : α → List β) : List α → List β
  | [] => []
  | x :: xs => f x ++ flatCollect f xs

/-- The verdict of one page request once the page size `50` is in play —
which, as proved below, is every request the deployed configuration makes. -/
def pageVerdict (server : PageParams → Except FetchErr Payload)
    (dIni dFim : String) (modalidade : Nat) (modo : Option Nat) (pagina : Nat) :
    Except FetchErr Payload :=
  server (mkParams dIni dFim modalidade modo pagina (some 50))

/-- Records contributed by one page: its `data` on success, nothing on failure. -/
def pageDataOf (server : PageParams → Except FetchErr Payload)
    (dIni dFim : String) (modalidade : Nat) (modo : Option Nat) (pagina : Nat) : List Rec :=
  match pageVerdict server dIni dFim modalidade modo pagina with
  | .ok pl => pl.data
  | .error _ => []

/-- Records of pages `2..total` of one modalidade. -/
def fapData (server : PageParams → Except FetchErr Payload)
    (dIni dFim : String) (modalidade : Nat) (modo : Option Nat) (total : Nat) : List Rec :=
  if total ≤ 1 then []
  else flatCollect (pageDataOf server dIni dFim modalidade modo) (List.range' 2 (total - 1))

/-- Number of `get_with_backoff` calls `fetch_all_pages_for_modalidade` issues. -/
def fapCalls (total : Nat) : Nat := if total ≤ 1 then 0 else total - 1

/-- Outcome of discovery for one modalidade. -/
def discoverVerdict (server : PageParams → Except FetchErr Payload)
    (dIni dFim : String) (modo : Option Nat) (modalidade : Nat) :
    Option (Nat × List Rec) :=
  match pageVerdict server dIni dFim modalidade modo 1 with
  | .ok pl => some (pyOrNat pl.totalPaginas (pyOrNat pl.totalPaginasConsulta 1), pl.data)
  | .error _ => none

/-- The discovered `(modalidade, total, page1)` triples. -/
def discoveredOf (server : PageParams → Except FetchErr Payload)
    (dIni dFim : String) (modo : Option Nat) (modalidades : List Nat) :
    List (Nat × Nat × List Rec) :=
  modalidades.filterMap fun m =>
    (discoverVerdict server dIni dFim modo m).map fun tp => (m, tp.1, tp.2)

/-- All records one window fetch collects, as a function of the server alone. -/
def multiData (server : PageParams → Except FetchErr Payload)
    (dIni dFim : String) (modo : Option Nat) (modalidades : List Nat) : List Rec :=
  flatCollect (fun e => e.2.2 ++ fapData server dIni dFim e.1 modo e.2.1)
    (discoveredOf server dIni dFim modo modalidades)

/-- Calls of the collection phase. -/
def sumFap (ds : List (Nat × Nat × List Rec)) : Nat :=
  match ds with
  | [] => 0
  | e :: rest => fapCalls e.2.1 + sumFap rest

/-- All `get_with_backoff` calls one window fetch issues, as a function of
the server alone. -/
def multiCalls (server : PageParams → Except FetchErr Payload)
    (dIni dFim : String) (modo : Option Nat) (modalidades : List Nat) : Nat :=
  modalidades.length + sumFap (discoveredOf server dIni dFim modo modalidades)

/-! ### Record identity and the item-fetch stage -/

/-- Truthiness filter: Python treats `None` and `""` as falsy. -/
def getTruthy : Option String → Option String
  | some s => if s = "" then none else some s
  | none => none

/-- Python's `a or b` on optional strings followed by a truthiness test, as
in `c.get("numeroControlePncp") or c.get("numeroControlePNCP")` guarded by
`if numero_controle:` (pncp.py lines 562-563). -/
def pyOr (a b : Option String) : Option String :=
  match getTruthy a with
  | some s => some s
  | none => getTruthy b

/-- `format_id_pncp_from_numero_controle(raw)` (pncp.py lines 118-128):
unpack `left, ano = raw.split("/")` (any count of `"/"`-separated parts
other than two raises, caught as `(None, None)`), take `left.split("-")[0]`
as the CNPJ and `left.split("-")[-1]` stripped of leading zeros (or `"0"`)
as the sequence number, and build the id and edital link. -/
def format_id_pncp_from_numero_controle (raw : String) : Option (String × String) :=
  match pySplit raw '/' with
  | [left, ano] =>
    let parts := pySplit left '-'
    let cnpj := parts.headD ""
    let seqRaw := parts.getLastD ""
    let t := seqRaw.data.dropWhile (fun ch => ch = '0')
    let seq : String := if t.isEmpty then "0" else ⟨t⟩
    let idp := cnpj ++ "/" ++ ano ++ "/" ++ seq
    some (idp, "https://pncp.gov.br/app/editais/" ++ idp)
  | _ => none

/-- Derivation of the RecordID for one filtered record (pncp.py lines
560-570): prefer the control-number form; when the control number is absent
(falsy) or malformed, fall back to
`c["orgaoEntidade"]["cnpj"], c["anoCompra"], c["sequencialCompra"]`; a
`KeyError`/`TypeError` there makes the loop `continue`, modelled as `none`. -/
def derive_id (c : Rec) : Option String :=
  let fromNc : Option String :=
    match pyOr c.numeroControlePncp c.numeroControlePNCP with
    | some raw => (format_id_pncp_from_numero_controle raw).map Prod.fst
    | none => none
  match fromNc with
  | some idp => some idp
  | none =>
    match c.orgCnpj, c.anoCompra, c.sequencialCompra with
    | some cnpj, some ano, some seq => some (cnpj ++ "/" ++ ano ++ "/" ++ seq)
    | _, _, _ => none

/-- The ids every record of the input would individually derive. -/
def derivedIds (rs : List Rec) : List String := rs.filterMap derive_id

/-- The dedup loop building `id_to_info_mes` / `ids_do_mes`
(pncp.py lines 558-593): `seen` are the dict keys so far; a record whose id
is underivable is skipped; an id already seen is not appended again. -/
def collect_ids_aux (seen : List String) : List Rec → List String
  | [] => []
  | c :: rest =>
    match derive_id c with
    | none => collect_ids_aux seen rest
    | some idp =>
      if idp ∈ seen then collect_ids_aux seen rest
      else idp :: collect_ids_aux (idp :: seen) rest

/-- `ids_do_mes` as built from the filtered records (pncp.py lines 558-593). -/
def collect_ids (rs : List Rec) : List String := collect_ids_aux [] rs

/-- Whether the record's control number is absent or malformed — the
condition under which the fallback fields decide its fate. -/
def controlNumberUnusable (c : Rec) : Bool :=
  match pyOr c.numeroControlePncp c.numeroControlePNCP with
  | some raw => (format_id_pncp_from_numero_controle raw).isNone
  | none => true

/-- Worker loop of `fetch_itens_para_ids` (pncp.py lines 387-411): one
`itens_pncp_por_id` network call per element of `ids_uniq` (the oracle's
verdict for that id), successes extended into the aggregate, failures
caught by `except Exception` and dropped.  Returns the aggregate and the
log of ids for which a call was issued (completion order modelled as
submission order; the caller treats the aggregate as unordered). -/
def itensFold {α : Type} (oracle : String → Except Unit (List α)) :
    List (String × String) → List α × List String
  | [] => ([], [])
  | i :: rest =>
    match oracle i.1 with
    | .ok its =>
      let r := itensFold oracle rest
      (its ++ r.1, i.1 :: r.2)
    | .error _ =>
      let r := itensFold oracle rest
      (r.1, i.1 :: r.2)

/-- `fetch_itens_para_ids(session, ids_uniq)` (pncp.py lines 387-411),
including the early return on an empty input. -/
def fetch_itens_para_ids {α : Type} (oracle : String → Except Unit (List α))
    (ids_uniq : List (String × String)) : List α × List String :=
  match ids_uniq with
  | [] => ([], [])
  | _ :: _ => itensFold oracle ids_uniq

/-! ## Proofs -/

/-! ### Calendar lemmas -/

theorem monthLength_ge (y m : Nat) : 28 ≤ monthLength y m := by
  unfold monthLength
  split
  · split <;> omega
  · split <;> omega

theorem monthLength_le (y m : Nat) : monthLength y m ≤ 31 := by
  unfold monthLength
  split
  · split <;> omega
  · split <;> omega

theorem monthLength_pos (y m : Nat) : 1 ≤ monthLength y m := by
  have := monthLength_ge y m
  omega

theorem Date.valid_d_le_31 {x : Date} (h : x.Valid) : x.d ≤ 31 :=
  le_trans h.2.2.2 (monthLength_le x.y x.m)

theorem monthEnd_valid {x : Date} (h : x.Valid) : (monthEnd x).Valid := by
  have hge := monthLength_ge x.y x.m
  obtain ⟨h1, h2, h3, h4⟩ := h
  unfold monthEnd Date.Valid
  dsimp only
  omega

theorem key_lt_of_monthIdx_lt {a b : Date} (ha : a.Valid) (hb : b.Valid)
    (h : monthIdx a < monthIdx b) : a.key < b.key := by
  have hda := Date.valid_d_le_31 ha
  have hdb := Date.valid_d_le_31 hb
  obtain ⟨ha1, ha2, ha3, _⟩ := ha
  obtain ⟨hb1, hb2, hb3, _⟩ := hb
  unfold monthIdx at h
  unfold Date.key
  omega

theorem monthIdx_le_of_key_le {a b : Date} (ha : a.Valid) (hb : b.Valid)
    (h : a.key ≤ b.key) : monthIdx a ≤ monthIdx b := by
  by_contra hc
  exact absurd (key_lt_of_monthIdx_lt hb ha (by omega)) (by omega)

theorem eq_ym_of_monthIdx_eq {a b : Date} (ha : a.Valid) (hb : b.Valid)
    (h : monthIdx a = monthIdx b) : a.y = b.y ∧ a.m = b.m := by
  obtain ⟨ha1, ha2, _, _⟩ := ha
  obtain ⟨hb1, hb2, _, _⟩ := hb
  unfold monthIdx at h
  omega

theorem key_le_of_same_month {a b : Date} (hy : a.y = b.y) (hm : a.m = b.m)
    (hd : a.d ≤ b.d) : a.key ≤ b.key := by
  unfold Date.key
  omega

theorem key_lt_nextDay {x : Date} (h : x.Valid) : x.key < (nextDay x).key := by
  have hd := Date.valid_d_le_31 h
  obtain ⟨h1, h2, h3, h4⟩ := h
  unfold nextDay
  split
  · unfold Date.key; dsimp only; omega
  · split <;> (unfold Date.key; dsimp only; omega)

theorem monthIdx_nextDay_monthEnd {x : Date} (h : x.Valid) :
    monthIdx (nextDay (monthEnd x)) = monthIdx x + 1 := by
  have hge := monthLength_ge x.y x.m
  obtain ⟨h1, h2, _, _⟩ := h
  unfold monthEnd nextDay
  dsimp only
  split
  · omega
  · split <;> (unfold monthIdx; dsimp only; omega)

theorem nextDay_monthEnd_valid {x : Date} (h : x.Valid) :
    (nextDay (monthEnd x)).Valid := by
  have hge := monthLength_ge x.y x.m
  obtain ⟨h1, h2, _, _⟩ := h
  unfold monthEnd nextDay
  dsimp only
  split
  · omega
  · split <;> (unfold Date.Valid; dsimp only; exact ⟨by omega, by omega, le_rfl, monthLength_pos _ _⟩)

theorem nextDay_monthEnd_day_one {x : Date} (h : x.Valid) :
    (nextDay (monthEnd x)).d = 1 := by
  have hge := monthLength_ge x.y x.m
  obtain ⟨h1, h2, _, _⟩ := h
  unfold monthEnd nextDay
  dsimp only
  split
  · omega
  · split <;> rfl

/-- No valid date lies strictly between a valid date and its successor. -/
theorem key_nextDay_le_of_key_lt {a x : Date} (ha : a.Valid) (hx : x.Valid)
    (h : a.key < x.key) : (nextDay a).key ≤ x.key := by
  have hcong : x.y = a.y ∧ x.m = a.m → monthLength x.y x.m = monthLength a.y a.m := by
    rintro ⟨hy, hm⟩; rw [hy, hm]
  have hLa1 := monthLength_ge a.y a.m
  have hLa2 := monthLength_le a.y a.m
  have hLx1 := monthLength_ge x.y x.m
  have hLx2 := monthLength_le x.y x.m
  obtain ⟨ha1, ha2, ha3, ha4⟩ := ha
  obtain ⟨hx1, hx2, hx3, hx4⟩ := hx
  unfold Date.key at h ⊢
  unfold nextDay
  split
  · dsimp only; omega
  · split <;> (dsimp only; omega)

theorem monthIdx_monthEnd (cd : Date) : monthIdx (monthEnd cd) = monthIdx cd := rfl

theorem key_le_monthEnd {cd : Date} (h : cd.Valid) : cd.key ≤ (monthEnd cd).key := by
  have h4 := h.2.2.2
  unfold monthEnd Date.key
  dsimp only
  omega

theorem monthStart_key_le {sd : Date} (h : sd.Valid) : (monthStart sd).key ≤ sd.key := by
  have h3 := h.2.2.1
  unfold monthStart Date.key
  dsimp only
  omega

theorem dmax_monthStart_self {sd : Date} (h : sd.Valid) : dmax sd (monthStart sd) = sd := by
  unfold dmax
  rw [if_pos (monthStart_key_le h)]

theorem key_le_of_dmax_eq {sd cd : Date} (h : dmax sd (monthStart cd) = cd) :
    sd.key ≤ cd.key := by
  unfold dmax at h
  split at h
  · exact le_of_eq (congrArg Date.key h)
  · rename_i hlt
    have hlt' := not_le.mp hlt
    rw [h] at hlt'
    exact le_of_lt hlt'

theorem gerarLoop_nil (sd ed : Date) (f : Nat) (cd : Date) (h : ¬ cd.key ≤ ed.key) :
    gerarIntervalosLoop sd ed f cd = [] := by
  cases f with
  | zero => rfl
  | succ f => simp only [gerarIntervalosLoop, if_neg h]

theorem getLast?_cons_of_ne_nil {α : Type} (a : α) {l : List α} (h : l ≠ []) :
    (a :: l).getLast? = l.getLast? := by
  cases l with
  | nil => exact absurd rfl h
  | cons b bs => simp [List.getLast?]

/-- Full correctness of one run of the month loop from a reachable state
`cd` (either the parsed start date itself or the first day of a later
month): the produced windows start at `cd`, end exactly at `ed`, stay
inside `[cd, ed]`, have each end computed as the earlier of the month end
and the global end, are contiguous and strictly increasing, and jointly
cover every valid date of `[cd, ed]`. -/
theorem gerarLoop_spec (sd ed : Date) (hed : ed.Valid) :
    ∀ fuel cd, cd.Valid → dmax sd (monthStart cd) = cd →
      monthIdx ed + 1 - monthIdx cd ≤ fuel → cd.key ≤ ed.key →
      (∃ rest, gerarIntervalosLoop sd ed fuel cd
          = (cd, dmin ed (monthEnd cd)) :: rest) ∧
      (∃ wl, (gerarIntervalosLoop sd ed fuel cd).getLast? = some wl ∧ wl.2 = ed) ∧
      (∀ w ∈ gerarIntervalosLoop sd ed fuel cd,
        w.1.Valid ∧ w.2.Valid ∧ cd.key ≤ w.1.key ∧ w.1.key ≤ w.2.key ∧ w.2.key ≤ ed.key ∧
          w.2 = dmin ed (monthEnd w.1)) ∧
      List.Chain' (fun a b => b.1 = nextDay a.2 ∧ a.2.key < b.1.key)
        (gerarIntervalosLoop sd ed fuel cd) ∧
      (∀ x : Date, x.Valid → cd.key ≤ x.key → x.key ≤ ed.key →
        ∃ w ∈ gerarIntervalosLoop sd ed fuel cd, w.1.key ≤ x.key ∧ x.key ≤ w.2.key) := by
  intro fuel
  induction fuel with
  | zero =>
    intro cd hcd hinv hfuel hle
    have := monthIdx_le_of_key_le hcd hed hle
    omega
  | succ fuel ih =>
    intro cd hcd hinv hfuel hle
    have hmle := monthIdx_le_of_key_le hcd hed hle
    have hme_valid := monthEnd_valid hcd
    simp only [gerarIntervalosLoop, if_pos hle, hinv]
    by_cases heq : monthIdx cd = monthIdx ed
    · -- `cd` and `ed` lie in the same month: last window, loop stops after it
      obtain ⟨hy, hm⟩ := eq_ym_of_monthIdx_eq hcd hed heq
      have hlen : monthLength cd.y cd.m = monthLength ed.y ed.m := by rw [hy, hm]
      have hed4 := hed.2.2.2
      have hie : dmin ed (monthEnd cd) = ed := by
        unfold dmin
        rw [if_pos]
        unfold monthEnd Date.key
        dsimp only
        omega
      have hnext_gt : ¬ (nextDay (monthEnd cd)).key ≤ ed.key := by
        have h1 := monthIdx_nextDay_monthEnd hcd
        have h2 := key_lt_of_monthIdx_lt hed (nextDay_monthEnd_valid hcd) (by omega)
        omega
      rw [hie, gerarLoop_nil sd ed fuel _ hnext_gt]
      refine ⟨⟨[], rfl⟩, ⟨(cd, ed), rfl, rfl⟩, ?_, ?_, ?_⟩
      · intro w hw
        rw [List.mem_singleton] at hw
        subst hw
        exact ⟨hcd, hed, le_rfl, hle, le_rfl, by rw [hie]⟩
      · simp
      · intro x hx h1 h2
        exact ⟨(cd, ed), List.mem_singleton_self _, h1, h2⟩
    · -- the window ends at the month end and the loop continues next month
      have hmlt : monthIdx cd < monthIdx ed := lt_of_le_of_ne hmle heq
      have hme_lt : (monthEnd cd).key < ed.key := by
        refine key_lt_of_monthIdx_lt hme_valid hed ?_
        rw [monthIdx_monthEnd]
        exact hmlt
      have hie : dmin ed (monthEnd cd) = monthEnd cd := by
        unfold dmin
        rw [if_neg (by omega)]
      have hcd' := nextDay_monthEnd_valid hcd
      have hmidx' := monthIdx_nextDay_monthEnd hcd
      have hd1 := nextDay_monthEnd_day_one hcd
      have hcd'_le : (nextDay (monthEnd cd)).key ≤ ed.key := by
        by_cases h2 : monthIdx (nextDay (monthEnd cd)) = monthIdx ed
        · obtain ⟨hy, hm⟩ := eq_ym_of_monthIdx_eq hcd' hed h2
          have hed3 := hed.2.2.1
          unfold Date.key
          omega
        · exact le_of_lt (key_lt_of_monthIdx_lt hcd' hed (by omega))
      have hsd_le : sd.key ≤ cd.key := key_le_of_dmax_eq hinv
      have hme_key := key_le_monthEnd hcd
      have hnd_lt := key_lt_nextDay hme_valid
      have hms : monthStart (nextDay (monthEnd cd)) = nextDay (monthEnd cd) := by
        unfold monthStart
        rw [← hd1]
      have hinv' : dmax sd (monthStart (nextDay (monthEnd cd))) = nextDay (monthEnd cd) := by
        rw [hms]
        unfold dmax
        rw [if_neg (by omega)]
      have hfuel' : monthIdx ed + 1 - monthIdx (nextDay (monthEnd cd)) ≤ fuel := by omega
      obtain ⟨⟨rest', hA⟩, ⟨wl, hBl, hBe⟩, hC, hD, hE⟩ :=
        ih (nextDay (monthEnd cd)) hcd' hinv' hfuel' hcd'_le
      have hne' : gerarIntervalosLoop sd ed fuel (nextDay (monthEnd cd)) ≠ [] := by
        rw [hA]; exact List.cons_ne_nil _ _
      rw [hie]
      refine ⟨⟨_, rfl⟩, ⟨wl, ?_, hBe⟩, ?_, ?_, ?_⟩
      · rw [getLast?_cons_of_ne_nil _ hne']
        exact hBl
      · intro w hw
        rcases List.mem_cons.mp hw with hw | hw
        · subst hw
          exact ⟨hcd, hme_valid, le_rfl, hme_key, le_of_lt hme_lt, hie.symm⟩
        · obtain ⟨w1v, w2v, hwl, hww, hwu, hwe⟩ := hC w hw
          exact ⟨w1v, w2v, by omega, hww, hwu, hwe⟩
      · refine List.chain'_cons'.mpr ⟨?_, hD⟩
        intro b hb
        rw [hA] at hb
        simp only [List.head?_cons, Option.mem_def, Option.some.injEq] at hb
        subst hb
        exact ⟨rfl, hnd_lt⟩
      · intro x hx h1 h2
        by_cases hxm : x.key ≤ (monthEnd cd).key
        · exact ⟨(cd, monthEnd cd), List.mem_cons_self _ _, h1, hxm⟩
        · have hge := key_nextDay_le_of_key_lt hme_valid hx (by omega)
          obtain ⟨w, hwmem, hw1, hw2⟩ := hE x hx hge h2
          exact ⟨w, List.mem_cons_of_mem _ hwmem, hw1, hw2⟩

/-! ### Claims C2 and C9: the date-window splitter -/

/-- C2: for any `(start, end)` with `start <= end` (both valid `"%Y%m%d"`
dates; the splitter of the code has only the monthly mode), the output
windows of `gerar_intervalos_mensais` start at `start`, end at `end`, stay
inside `[start, end]` (so no window ends past the global end), are
contiguous and strictly increasing (hence sorted and non-overlapping:
window `i+1` starts on the day after window `i` ends), and every valid date
of `[start, end]` falls inside some window, so the union is exactly
`[start, end]` with no gaps. -/
theorem C2_window_coverage (sd ed : Date) (hs : sd.Valid) (he : ed.Valid)
    (hle : sd.key ≤ ed.key) :
    (∃ w0 rest, gerarIntervalos sd ed = w0 :: rest ∧ w0.1 = sd) ∧
    (∃ wl, (gerarIntervalos sd ed).getLast? = some wl ∧ wl.2 = ed) ∧
    (∀ w ∈ gerarIntervalos sd ed,
      sd.key ≤ w.1.key ∧ w.1.key ≤ w.2.key ∧ w.2.key ≤ ed.key) ∧
    List.Chain' (fun a b => b.1 = nextDay a.2 ∧ a.2.key < b.1.key) (gerarIntervalos sd ed) ∧
    (∀ x : Date, x.Valid → sd.key ≤ x.key → x.key ≤ ed.key →
      ∃ w ∈ gerarIntervalos sd ed, w.1.key ≤ x.key ∧ x.key ≤ w.2.key) := by
  obtain ⟨⟨rest, hA⟩, hB, hC, hD, hE⟩ :=
    gerarLoop_spec sd ed he (monthIdx ed + 1 - monthIdx sd) sd hs
      (dmax_monthStart_self hs) le_rfl hle
  refine ⟨⟨_, rest, hA, rfl⟩, hB, ?_, hD, hE⟩
  intro w hw
  obtain ⟨_, _, h1, h2, h3, _⟩ := hC w hw
  exact ⟨h1, h2, h3⟩

/-- Witness for C2 at the concrete range 2024-01-15 .. 2024-02-15. -/
theorem C2_window_coverage_witness :
    (∃ w0 rest, gerarIntervalos ⟨2024, 1, 15⟩ ⟨2024, 2, 15⟩ = w0 :: rest ∧ w0.1 = ⟨2024, 1, 15⟩) ∧
    (∃ wl, (gerarIntervalos ⟨2024, 1, 15⟩ ⟨2024, 2, 15⟩).getLast? = some wl ∧ wl.2 = ⟨2024, 2, 15⟩) ∧
    (∀ w ∈ gerarIntervalos ⟨2024, 1, 15⟩ ⟨2024, 2, 15⟩,
      (⟨2024, 1, 15⟩ : Date).key ≤ w.1.key ∧ w.1.key ≤ w.2.key ∧
        w.2.key ≤ (⟨2024, 2, 15⟩ : Date).key) ∧
    List.Chain' (fun a b => b.1 = nextDay a.2 ∧ a.2.key < b.1.key)
      (gerarIntervalos ⟨2024, 1, 15⟩ ⟨2024, 2, 15⟩) ∧
    (∀ x : Date, x.Valid → (⟨2024, 1, 15⟩ : Date).key ≤ x.key →
      x.key ≤ (⟨2024, 2, 15⟩ : Date).key →
      ∃ w ∈ gerarIntervalos ⟨2024, 1, 15⟩ ⟨2024, 2, 15⟩, w.1.key ≤ x.key ∧ x.key ≤ w.2.key) :=
  C2_window_coverage ⟨2024, 1, 15⟩ ⟨2024, 2, 15⟩ (by decide) (by decide) (by decide)

/-- C9: in the monthly splitter every produced window ends at the last
calendar day of its starting month or at the global end date, whichever is
earlier (`dmin ed (monthEnd w.1)`), and on the strings of the spec scenario
`gerar_intervalos_mensais "20240115" "20240215"` returns exactly
`[("20240115","20240131"), ("20240201","20240215")]`. -/
theorem C9_monthly_boundary (sd ed : Date) (hs : sd.Valid) (he : ed.Valid)
    (hle : sd.key ≤ ed.key) :
    (∀ w ∈ gerarIntervalos sd ed, w.2 = dmin ed (monthEnd w.1)) ∧
    gerar_intervalos_mensais "20240115" "20240215" =
      some [("20240115", "20240131"), ("20240201", "20240215")] := by
  obtain ⟨_, _, hC, _, _⟩ :=
    gerarLoop_spec sd ed he (monthIdx ed + 1 - monthIdx sd) sd hs
      (dmax_monthStart_self hs) le_rfl hle
  exact ⟨fun w hw => (hC w hw).2.2.2.2.2, by decide⟩

/-- Witness for C9 at the concrete range 2024-01-15 .. 2024-02-15. -/
theorem C9_monthly_boundary_witness :
    (∀ w ∈ gerarIntervalos ⟨2024, 1, 15⟩ ⟨2024, 2, 15⟩,
      w.2 = dmin ⟨2024, 2, 15⟩ (monthEnd w.1)) ∧
    gerar_intervalos_mensais "20240115" "20240215" =
      some [("20240115", "20240131"), ("20240201", "20240215")] :=
  C9_monthly_boundary ⟨2024, 1, 15⟩ ⟨2024, 2, 15⟩ (by decide) (by decide) (by decide)

/-! ### Retry-client lemmas -/

/-- One-step equation of the loop: transport exception. -/
theorem getLoop_step_exn {respond : Nat → TransportResult} {i attempt remaining : Nat}
    (h : respond i = .exn) :
    getLoop respond i attempt remaining = ⟨.transportError, 1, []⟩ := by
  rw [getLoop.eq_def, h]

/-- One-step equation of the loop: 2xx success. -/
theorem getLoop_step_ok {respond : Nat → TransportResult} {i attempt remaining s : Nat}
    {uu bb : String} {rra : Option Nat} (h : respond i = .resp s uu bb rra)
    (h2 : 200 ≤ s ∧ s < 300) :
    getLoop respond i attempt remaining = ⟨.ok i, 1, []⟩ := by
  rw [getLoop.eq_def, h]
  dsimp only
  rw [if_pos h2]

/-- One-step equation of the loop: retryable status, budget exhausted. -/
theorem getLoop_step_retry_zero {respond : Nat → TransportResult} {i attempt s : Nat}
    {uu bb : String} {rra : Option Nat} (h : respond i = .resp s uu bb rra)
    (hn2 : ¬ (200 ≤ s ∧ s < 300)) (hr : s = 429 ∨ (500 ≤ s ∧ s < 600)) :
    getLoop respond i attempt 0 = ⟨.httpError (httpErrMsg s uu bb), 1, []⟩ := by
  rw [getLoop.eq_def, h]
  dsimp only
  rw [if_neg hn2, if_pos hr]

/-- One-step equation of the loop: retryable status, budget left — sleep
and recurse with the next request index and attempt counter. -/
theorem getLoop_step_retry_succ {respond : Nat → TransportResult} {i attempt r s : Nat}
    {uu bb : String} {rra : Option Nat} (h : respond i = .resp s uu bb rra)
    (hn2 : ¬ (200 ≤ s ∧ s < 300)) (hr : s = 429 ∨ (500 ≤ s ∧ s < 600)) :
    getLoop respond i attempt (r + 1) =
      ⟨(getLoop respond (i + 1) (attempt + 1) r).outcome,
       (getLoop respond (i + 1) (attempt + 1) r).requests + 1,
       waitSeconds (attempt + 1) :: (getLoop respond (i + 1) (attempt + 1) r).sleeps⟩ := by
  rw [getLoop.eq_def, h]
  dsimp only
  rw [if_neg hn2, if_pos hr]

/-- One-step equation of the loop: a non-2xx, non-retryable status raises
immediately. -/
theorem getLoop_step_other {respond : Nat → TransportResult} {i attempt remaining s : Nat}
    {uu bb : String} {rra : Option Nat} (h : respond i = .resp s uu bb rra)
    (hn2 : ¬ (200 ≤ s ∧ s < 300)) (hn3 : ¬ (s = 429 ∨ (500 ≤ s ∧ s < 600))) :
    getLoop respond i attempt remaining = ⟨.httpError (httpErrMsg s uu bb), 1, []⟩ := by
  rw [getLoop.eq_def, h]
  dsimp only
  rw [if_neg hn2, if_neg hn3]

/-- A server answering every attempt with the same retryable status makes
the loop spend the whole budget: `remaining + 1` requests, the backoff
sleeps of attempts `attempt+1 .. attempt+remaining`, and a terminal
`HTTPError` built from the last response. -/
theorem getLoop_const_retryable (s : Nat) (hs : s = 429 ∨ (500 ≤ s ∧ s < 600))
    (u b : Nat → String) (ra : Nat → Option Nat) :
    ∀ remaining i attempt,
      getLoop (fun j => .resp s (u j) (b j) (ra j)) i attempt remaining =
        ⟨.httpError (httpErrMsg s (u (i + remaining)) (b (i + remaining))), remaining + 1,
          (List.range remaining).map (fun k => waitSeconds (attempt + 1 + k))⟩ := by
  have hn2 : ¬ (200 ≤ s ∧ s < 300) := by omega
  intro remaining
  induction remaining with
  | zero =>
    intro i attempt
    rw [getLoop_step_retry_zero rfl hn2 hs]
    simp
  | succ r ihr =>
    intro i attempt
    rw [getLoop_step_retry_succ rfl hn2 hs, ihr (i + 1) (attempt + 1)]
    dsimp only
    simp only [GetTrace.mk.injEq]
    refine ⟨?_, trivial, ?_⟩
    · rw [show i + 1 + r = i + (r + 1) from by omega]
    · rw [List.range_succ_eq_map, List.map_cons, List.map_map]
      refine congrArg₂ _ (by rw [Nat.add_zero]) ?_
      refine List.map_congr_left ?_
      intro k _
      show waitSeconds (attempt + 1 + 1 + k) = waitSeconds (attempt + 1 + (k + 1))
      exact congrArg waitSeconds (by omega)

/-- A transport-level exception at request `n`, after `n` retryable
responses, escapes the loop at once: `n + 1` requests, `n` backoff sleeps,
outcome `transportError` — the loop has no handler for it. -/
theorem getLoop_exn_after (respond : Nat → TransportResult) :
    ∀ n i attempt remaining,
      (∀ j, j < n → ∃ s uu bb rra, respond (i + j) = .resp s uu bb rra ∧
        ¬ (200 ≤ s ∧ s < 300) ∧ (s = 429 ∨ (500 ≤ s ∧ s < 600))) →
      respond (i + n) = .exn → n ≤ remaining →
      (getLoop respond i attempt remaining).outcome = .transportError ∧
      (getLoop respond i attempt remaining).requests = n + 1 ∧
      (getLoop respond i attempt remaining).sleeps.length = n := by
  intro n
  induction n with
  | zero =>
    intro i attempt remaining hpre hexn hle
    rw [Nat.add_zero] at hexn
    rw [getLoop_step_exn hexn]
    exact ⟨rfl, rfl, rfl⟩
  | succ k ihk =>
    intro i attempt remaining hpre hexn hle
    obtain ⟨s, uu, bb, rra, hr, hn2, hretry⟩ := hpre 0 (by omega)
    rw [Nat.add_zero] at hr
    obtain ⟨r, rfl⟩ : ∃ r, remaining = r + 1 := ⟨remaining - 1, by omega⟩
    rw [getLoop_step_retry_succ hr hn2 hretry]
    have hrec := ihk (i + 1) (attempt + 1) r
      (fun j hj => by
        have h := hpre (j + 1) (by omega)
        rwa [show i + (j + 1) = i + 1 + j from by omega] at h)
      (by rwa [show i + 1 + k = i + (k + 1) from by omega])
      (by omega)
    refine ⟨hrec.1, ?_, ?_⟩
    · dsimp only
      rw [hrec.2.1]
    · dsimp only
      rw [List.length_cons, hrec.2.2]

/-- The loop never reads the `Retry-After` header (or any header): erasing
it from every response leaves the whole trace unchanged. -/
theorem getLoop_stripRA (respond : Nat → TransportResult) :
    ∀ remaining i attempt,
      getLoop (fun j => stripRA (respond j)) i attempt remaining =
        getLoop respond i attempt remaining := by
  intro remaining
  induction remaining with
  | zero =>
    intro i attempt
    cases h : respond i with
    | exn =>
      have h' : stripRA (respond i) = .exn := by rw [h]; rfl
      rw [getLoop_step_exn h,
        @getLoop_step_exn (fun j => stripRA (respond j)) i attempt 0 h']
    | resp s uu bb rra =>
      have h' : stripRA (respond i) = .resp s uu bb none := by rw [h]; rfl
      by_cases h2 : 200 ≤ s ∧ s < 300
      · rw [getLoop_step_ok h h2,
          @getLoop_step_ok (fun j => stripRA (respond j)) i attempt 0 s uu bb none h' h2]
      · by_cases h3 : s = 429 ∨ (500 ≤ s ∧ s < 600)
        · rw [getLoop_step_retry_zero h h2 h3,
            @getLoop_step_retry_zero (fun j => stripRA (respond j)) i attempt s uu bb none h' h2 h3]
        · rw [getLoop_step_other h h2 h3,
            @getLoop_step_other (fun j => stripRA (respond j)) i attempt 0 s uu bb none h' h2 h3]
  | succ r ihr =>
    intro i attempt
    cases h : respond i with
    | exn =>
      have h' : stripRA (respond i) = .exn := by rw [h]; rfl
      rw [getLoop_step_exn h,
        @getLoop_step_exn (fun j => stripRA (respond j)) i attempt (r + 1) h']
    | resp s uu bb rra =>
      have h' : stripRA (respond i) = .resp s uu bb none := by rw [h]; rfl
      by_cases h2 : 200 ≤ s ∧ s < 300
      · rw [getLoop_step_ok h h2,
          @getLoop_step_ok (fun j => stripRA (respond j)) i attempt (r + 1) s uu bb none h' h2]
      · by_cases h3 : s = 429 ∨ (500 ≤ s ∧ s < 600)
        · rw [getLoop_step_retry_succ h h2 h3,
            @getLoop_step_retry_succ (fun j => stripRA (respond j)) i attempt r s uu bb none h' h2 h3,
            ihr]
        · rw [getLoop_step_other h h2 h3,
            @getLoop_step_other (fun j => stripRA (respond j)) i attempt (r + 1) s uu bb none h' h2 h3]

/-! ### Claims C3, C4, C6: the retry client -/

/-- C3: when `session.get` returns a 503 response on every attempt,
`get_with_backoff` issues exactly `max_retries + 1` requests and then
raises the terminal `requests.HTTPError` carrying the last status, url and
body excerpt.  The model's loop is structurally recursive on the remaining
budget, so it cannot loop forever. -/
theorem C3_retry_termination (max_retries : Nat) (u b : Nat → String) (ra : Nat → Option Nat) :
    (get_with_backoff (fun j => .resp 503 (u j) (b j) (ra j)) max_retries).requests
        = max_retries + 1 ∧
    (get_with_backoff (fun j => .resp 503 (u j) (b j) (ra j)) max_retries).outcome
        = .httpError (httpErrMsg 503 (u max_retries) (b max_retries)) := by
  unfold get_with_backoff
  rw [getLoop_const_retryable 503 (by omega) u b ra max_retries 0 0]
  exact ⟨rfl, by rw [Nat.zero_add]⟩

/-- C4 counterexample: with `session.get` raising a transport-level
exception on every attempt and `max_retries = 4`, `get_with_backoff`
performs a single request, no backoff sleep, and propagates the exception —
not the `4 + 1` budget-exhausting attempts the claim requires for a failure
treated like a 5xx. -/
theorem C4_transport_counterexample :
    get_with_backoff (fun _ => .exn) 4 = ⟨.transportError, 1, []⟩ ∧
    (get_with_backoff (fun _ => .exn) 4).requests ≠ 4 + 1 := by
  exact ⟨by decide, by decide⟩

/-- C4 amended: `get_with_backoff` has no handler for transport-level
failures.  A transport exception on request `n` (after `n` retryable
429/5xx responses) propagates immediately out of the loop: `n + 1` requests
and only the `n` sleeps the earlier status retries caused, regardless of
the remaining budget.  (The session adapter of `build_session` separately
retries transport errors up to `ADAPTER_RETRY.total = 2` times below this
boundary; the cited retry loop itself never does, and its backoff schedule
`1.4^attempt + 0.25*attempt` has no random jitter.) -/
theorem C4_transport_propagates (respond : Nat → TransportResult) (max_retries n : Nat)
    (hpre : ∀ j, j < n → ∃ s uu bb rra, respond j = .resp s uu bb rra ∧
      ¬ (200 ≤ s ∧ s < 300) ∧ (s = 429 ∨ (500 ≤ s ∧ s < 600)))
    (hexn : respond n = .exn) (hn : n ≤ max_retries) :
    (get_with_backoff respond max_retries).outcome = .transportError ∧
    (get_with_backoff respond max_retries).requests = n + 1 ∧
    (get_with_backoff respond max_retries).sleeps.length = n := by
  unfold get_with_backoff
  refine getLoop_exn_after respond n 0 0 max_retries ?_ (by rwa [Nat.zero_add]) hn
  intro j hj
  rw [Nat.zero_add]
  exact hpre j hj

/-- Witness for the amended C4 with an immediate transport failure. -/
theorem C4_transport_propagates_witness :
    (get_with_backoff (fun _ => TransportResult.exn) 4).outcome = .transportError ∧
    (get_with_backoff (fun _ => TransportResult.exn) 4).requests = 0 + 1 ∧
    (get_with_backoff (fun _ => TransportResult.exn) 4).sleeps.length = 0 :=
  C4_transport_propagates (fun _ => TransportResult.exn) 4 0
    (fun j hj => absurd hj (by omega)) rfl (by omega)

/-- C6 counterexample: a 429 response carrying `Retry-After: 3` is followed
by a single sleep of `1.4^1 + 0.25 = 1.65 < 3` seconds before the next
attempt — the code never consults the header and performs no additional
sleep, contradicting the claimed "sleeps at least that duration". -/
theorem C6_retry_after_counterexample :
    (get_with_backoff
      (fun j => if j = 0 then .resp 429 "u" "b" (some 3) else .resp 200 "u" "b" none) 4).sleeps
      = [waitSeconds 1] ∧
    waitSeconds 1 < 3 ∧
    (get_with_backoff
      (fun j => if j = 0 then .resp 429 "u" "b" (some 3) else .resp 200 "u" "b" none) 4).outcome
      = .ok 1 := by
  refine ⟨?_, ?_, ?_⟩
  · norm_num [get_with_backoff, getLoop]
  · norm_num [waitSeconds]
  · norm_num [get_with_backoff, getLoop]

/-- C6 amended: a 429 is handled exactly like a 5xx.  The trace of
`get_with_backoff` is invariant under erasing the `Retry-After` header of
every response (the code never reads it), and a server answering 429 on
every attempt consumes the full budget — `max_retries + 1` requests — with
only the standard deterministic backoff sleeps `1.4^a + 0.25*a` for
attempts `a = 1 .. max_retries`. -/
theorem C6_retry_after_amended :
    (∀ (respond : Nat → TransportResult) (remaining i attempt : Nat),
      getLoop (fun j => stripRA (respond j)) i attempt remaining =
        getLoop respond i attempt remaining) ∧
    (∀ (u b : Nat → String) (ra : Nat → Option Nat) (max_retries : Nat),
      (get_with_backoff (fun j => .resp 429 (u j) (b j) (ra j)) max_retries).requests
          = max_retries + 1 ∧
      (get_with_backoff (fun j => .resp 429 (u j) (b j) (ra j)) max_retries).sleeps
          = (List.range max_retries).map (fun k => waitSeconds (k + 1))) := by
  refine ⟨fun respond remaining i attempt => getLoop_stripRA respond remaining i attempt, ?_⟩
  intro u b ra max_retries
  unfold get_with_backoff
  rw [getLoop_const_retryable 429 (by omega) u b ra max_retries 0 0]
  refine ⟨rfl, ?_⟩
  refine List.map_congr_left ?_
  intro k _
  exact congrArg waitSeconds (by omega)

/-! ### Substring lemmas for the page-size error classification -/

theorem charsPre_append (n suf : List Char) : charsPre n (n ++ suf) = true := by
  induction n with
  | nil => rfl
  | cons a as ih => simp [charsPre, ih]

theorem charsSub_of_pre {n h : List Char} (hp : charsPre n h = true) :
    charsSub n h = true := by
  cases h with
  | nil =>
    cases n with
    | nil => rfl
    | cons a as => exact absurd hp (by simp [charsPre])
  | cons c rest =>
    unfold charsSub
    rw [hp]
    rfl

theorem charsSub_cons (n : List Char) (c : Char) (rest : List Char) :
    charsSub n (c :: rest) = (charsPre n (c :: rest) || charsSub n rest) := rfl

theorem charsSub_append (n pre suf : List Char) :
    charsSub n (pre ++ n ++ suf) = true := by
  induction pre with
  | nil => exact charsSub_of_pre (charsPre_append n suf)
  | cons c pre ih =>
    rw [List.cons_append, List.cons_append, charsSub_cons, ih, Bool.or_true]

theorem String.data_append_eq (a b : String) : (a ++ b).data = a.data ++ b.data := rfl

/-- Every `HTTPError` raised for a status-400 response passes the
size-related test of `fetch_page_with_pagesize`: its message embeds the
status code, and `"400"` is a substring of `"HTTP 400 em ..."`. -/
theorem isSizeRetryMsg_status400 (u b : String) :
    isSizeRetryMsg (FetchErr.msgOf 400 u b) = true := by
  unfold isSizeRetryMsg
  have h4 : pyInStr "400" (FetchErr.msgOf 400 u b) = true := by
    unfold pyInStr FetchErr.msgOf httpErrMsg
    rw [show (toString (400 : Nat) : String) = "400" from rfl]
    rw [String.data_append_eq, String.data_append_eq, String.data_append_eq,
      String.data_append_eq]
    have := charsSub_append ("400".data) ("HTTP ".data)
      ((" em ".data ++ u.data ++ "\n".data ++ (strTake b 1000).data))
    simp only [List.append_assoc] at this ⊢
    exact this
  rw [h4, Bool.or_true]

/-! ### Evaluation of the pagination stack under the reachable cache states -/

/-- Equation lemma: `flatCollect` over a cons. -/
theorem flatCollect_cons {α β : Type} (f : α → List β) (x : α) (xs : List α) :
    flatCollect f (x :: xs) = f x ++ flatCollect f xs := rfl

/-- Equation lemma: `sumFap` over a cons. -/
theorem sumFap_cons (e : Nat × Nat × List Rec) (rest : List (Nat × Nat × List Rec)) :
    sumFap (e :: rest) = fapCalls e.2.1 + sumFap rest := rfl

theorem psCacheInv_nil : psCacheInv [] := by
  intro k v h
  simp [psLookup] at h

theorem psCacheInv_insert50 {c : PSCache} (h : psCacheInv c) (k : Nat × Option Nat) :
    psCacheInv ((k, some 50) :: c) := by
  intro k' v hv
  unfold psLookup at hv
  split at hv
  · cases hv
    rfl
  · exact h k' v hv

/-- Under the reachable cache states, every `fetch_page_with_pagesize` call
issues exactly one `get_with_backoff` call carrying `tamanhoPagina=50`
(the cached size when negotiated, the single candidate otherwise), returns
exactly the server's verdict for that request — on a size-classified 400
the candidate list is exhausted and `raise last_err` re-raises the same
error — and preserves the cache invariant. -/
theorem fetch_page_eval (server : PageParams → Except FetchErr Payload)
    {cache : PSCache} (hc : psCacheInv cache) (pagina : Nat) (dIni dFim : String)
    (modalidade : Nat) (modo : Option Nat) :
    ∃ c', fetch_page_with_pagesize server cache pagina dIni dFim modalidade modo =
      (pageVerdict server dIni dFim modalidade modo pagina, c', 1) ∧ psCacheInv c' := by
  unfold fetch_page_with_pagesize
  dsimp only
  cases hl : psLookup (modalidade, modo) cache with
  | some ps =>
    simp only [hl]
    have h50 := hc _ _ hl
    subst h50
    exact ⟨cache, rfl, hc⟩
  | none =>
    simp only [hl]
    unfold PAGE_SIZE_CANDIDATES negotiateLoop
    cases hs : server (mkParams dIni dFim modalidade modo pagina (some 50)) with
    | ok payload =>
      simp only [hs]
      refine ⟨((modalidade, modo), some 50) :: cache, ?_, psCacheInv_insert50 hc _⟩
      unfold pageVerdict
      rw [hs]
    | error e =>
      cases e with
      | http s uu bb =>
        simp only [hs]
        by_cases hsz : isSizeRetryMsg (FetchErr.msgOf s uu bb) = true
        · rw [if_pos hsz]
          refine ⟨cache, ?_, hc⟩
          unfold pageVerdict
          rw [hs]
          rfl
        · rw [if_neg hsz]
          refine ⟨cache, ?_, hc⟩
          unfold pageVerdict
          rw [hs]
      | transport =>
        simp only [hs]
        refine ⟨cache, ?_, hc⟩
        unfold pageVerdict
        rw [hs]
      | runtime =>
        simp only [hs]
        refine ⟨cache, ?_, hc⟩
        unfold pageVerdict
        rw [hs]

theorem pagesFold_eval (server : PageParams → Except FetchErr Payload)
    (dIni dFim : String) (modalidade : Nat) (modo : Option Nat) :
    ∀ (ps : List Nat) (cache : PSCache), psCacheInv cache →
      ∃ c', pagesFold server dIni dFim modalidade modo cache ps =
        (flatCollect (pageDataOf server dIni dFim modalidade modo) ps, c', ps.length) ∧
        psCacheInv c' := by
  intro ps
  induction ps with
  | nil => exact fun cache hc => ⟨cache, rfl, hc⟩
  | cons p rest ih =>
    intro cache hc
    obtain ⟨c1, hfp, hc1⟩ := fetch_page_eval server hc p dIni dFim modalidade modo
    obtain ⟨c2, hrest, hc2⟩ := ih c1 hc1
    cases hv : pageVerdict server dIni dFim modalidade modo p with
    | ok payload =>
      have hfp2 : fetch_page_with_pagesize server cache p dIni dFim modalidade modo
          = (.ok payload, c1, 1) := by rw [hfp, hv]
      have hpd : pageDataOf server dIni dFim modalidade modo p = payload.data := by
        unfold pageDataOf
        rw [hv]
      unfold pagesFold
      rw [hfp2]
      dsimp only
      rw [hrest, flatCollect_cons, hpd]
      refine ⟨c2, ?_, hc2⟩
      rw [List.length_cons, Nat.add_comm 1 rest.length]
    | error e =>
      have hfp2 : fetch_page_with_pagesize server cache p dIni dFim modalidade modo
          = (.error e, c1, 1) := by rw [hfp, hv]
      have hpd : pageDataOf server dIni dFim modalidade modo p = [] := by
        unfold pageDataOf
        rw [hv]
      unfold pagesFold
      rw [hfp2]
      dsimp only
      rw [hrest, flatCollect_cons, hpd]
      refine ⟨c2, ?_, hc2⟩
      rw [List.nil_append, List.length_cons, Nat.add_comm 1 rest.length]

theorem fetch_all_pages_eval (server : PageParams → Except FetchErr Payload)
    {cache : PSCache} (hc : psCacheInv cache) (total : Nat) (dIni dFim : String)
    (modalidade : Nat) (modo : Option Nat) :
    ∃ c', fetch_all_pages_for_modalidade server cache total dIni dFim modalidade modo =
      (fapData server dIni dFim modalidade modo total, c', fapCalls total) ∧
      psCacheInv c' := by
  unfold fetch_all_pages_for_modalidade fapData fapCalls
  by_cases h1 : total ≤ 1
  · rw [if_pos h1, if_pos h1, if_pos h1]
    exact ⟨cache, rfl, hc⟩
  · rw [if_neg h1, if_neg h1, if_neg h1]
    obtain ⟨c', hps, hc'⟩ :=
      pagesFold_eval server dIni dFim modalidade modo (List.range' 2 (total - 1)) cache hc
    rw [hps, List.length_range']
    exact ⟨c', rfl, hc'⟩

theorem discoverFold_eval (server : PageParams → Except FetchErr Payload)
    (dIni dFim : String) (modo : Option Nat) :
    ∀ (ms : List Nat) (cache : PSCache), psCacheInv cache →
      ∃ c', discoverFold server dIni dFim modo cache ms =
        (discoveredOf server dIni dFim modo ms, c', ms.length) ∧ psCacheInv c' := by
  intro ms
  induction ms with
  | nil => exact fun cache hc => ⟨cache, rfl, hc⟩
  | cons m rest ih =>
    intro cache hc
    obtain ⟨c1, hfp, hc1⟩ := fetch_page_eval server hc 1 dIni dFim m modo
    obtain ⟨c2, hrest, hc2⟩ := ih c1 hc1
    cases hv : pageVerdict server dIni dFim m modo 1 with
    | ok payload =>
      have hd : discover_total_pages_for_modalidade server cache dIni dFim m modo
          = (.ok (pyOrNat payload.totalPaginas (pyOrNat payload.totalPaginasConsulta 1),
              payload.data), c1, 1) := by
        unfold discover_total_pages_for_modalidade
        rw [hfp, hv]
      unfold discoverFold
      rw [hd]
      dsimp only
      rw [hrest]
      refine ⟨c2, ?_, hc2⟩
      unfold discoveredOf
      rw [List.filterMap_cons]
      unfold discoverVerdict
      rw [hv]
      dsimp only
      rw [List.length_cons, Nat.add_comm 1 rest.length]
      rfl
    | error e =>
      have hd : discover_total_pages_for_modalidade server cache dIni dFim m modo
          = (.error e, c1, 1) := by
        unfold discover_total_pages_for_modalidade
        rw [hfp, hv]
      unfold discoverFold
      rw [hd]
      dsimp only
      rw [hrest]
      refine ⟨c2, ?_, hc2⟩
      unfold discoveredOf
      rw [List.filterMap_cons]
      unfold discoverVerdict
      rw [hv]
      dsimp only
      rw [List.length_cons, Nat.add_comm 1 rest.length]
      rfl

theorem collectFold_eval (server : PageParams → Except FetchErr Payload)
    (dIni dFim : String) (modo : Option Nat) :
    ∀ (ds : List (Nat × Nat × List Rec)) (cache : PSCache), psCacheInv cache →
      ∃ c', collectFold server dIni dFim modo cache ds =
        (flatCollect (fun e => e.2.2 ++ fapData server dIni dFim e.1 modo e.2.1) ds, c',
          sumFap ds) ∧ psCacheInv c' := by
  intro ds
  induction ds with
  | nil => exact fun cache hc => ⟨cache, rfl, hc⟩
  | cons e rest ih =>
    intro cache hc
    obtain ⟨c1, hfa, hc1⟩ := fetch_all_pages_eval server hc e.2.1 dIni dFim e.1 modo
    obtain ⟨c2, hrest, hc2⟩ := ih c1 hc1
    unfold collectFold
    rw [hfa]
    dsimp only
    rw [hrest]
    rw [flatCollect_cons, sumFap_cons]
    dsimp only
    rw [List.append_assoc]
    exact ⟨c2, rfl, hc2⟩

/-- One window fetch, from any reachable cache state, returns records and a
call count that depend only on the server, and preserves the invariant. -/
theorem multi_eval (server : PageParams → Except FetchErr Payload)
    {cache : PSCache} (hc : psCacheInv cache) (dIni dFim : String)
    (modalidades : List Nat) (modo : Option Nat) :
    ∃ c', fetch_contratacoes_multi_modalidade server cache dIni dFim modalidades modo =
      (multiData server dIni dFim modo modalidades, c',
        multiCalls server dIni dFim modo modalidades) ∧ psCacheInv c' := by
  obtain ⟨c1, hd, hc1⟩ := discoverFold_eval server dIni dFim modo modalidades cache hc
  obtain ⟨c2, hcol, hc2⟩ :=
    collectFold_eval server dIni dFim modo (discoveredOf server dIni dFim modo modalidades) c1 hc1
  unfold fetch_contratacoes_multi_modalidade
  rw [hd]
  dsimp only
  rw [hcol]
  exact ⟨c2, rfl, hc2⟩

/-! ### Item-stage evaluation lemmas -/

theorem itensFold_eval {α : Type} (oracle : String → Except Unit (List α)) :
    ∀ ids : List (String × String),
      (itensFold oracle ids).1 =
        flatCollect (fun i => match oracle i.1 with | .ok its => its | .error _ => []) ids ∧
      (itensFold oracle ids).2 = ids.map (fun i => i.1) := by
  intro ids
  induction ids with
  | nil => exact ⟨rfl, rfl⟩
  | cons i rest ih =>
    cases ho : oracle i.1 with
    | ok its =>
      unfold itensFold
      rw [ho]
      dsimp only
      rw [flatCollect_cons, List.map_cons, ho]
      exact ⟨by rw [ih.1], by rw [ih.2]⟩
    | error e =>
      unfold itensFold
      rw [ho]
      dsimp only
      rw [flatCollect_cons, List.map_cons, ho]
      dsimp only
      rw [List.nil_append]
      exact ⟨ih.1, by rw [ih.2]⟩

theorem fetch_itens_eq {α : Type} (oracle : String → Except Unit (List α))
    (ids : List (String × String)) :
    fetch_itens_para_ids oracle ids = itensFold oracle ids := by
  cases ids <;> rfl

theorem flatCollect_congr {α β : Type} {f g : α → List β} :
    ∀ {l : List α}, (∀ a ∈ l, f a = g a) → flatCollect f l = flatCollect g l := by
  intro l
  induction l with
  | nil => intro _; rfl
  | cons a as ih =>
    intro h
    rw [flatCollect_cons, flatCollect_cons, h a (List.mem_cons_self a as),
      ih (fun b hb => h b (List.mem_cons_of_mem a hb))]

/-! ### Claim C1: no result cache for the window fetch -/

/-- C1 counterexample: with a server answering every request with a
one-page, empty result, a first `fetch_contratacoes_multi_modalidade` call
for window `("20240101","20240131")` and modalidade 6 issues one
`get_with_backoff` call, and repeating the identical call with the state
the first call left behind issues one network call again — not the zero
calls the claim requires of a disk-cache hit.  The program has no result
cache at all; only the in-memory page-size dict survives between calls. -/
theorem C1_cache_counterexample :
    (fetch_contratacoes_multi_modalidade (fun _ => .ok ⟨some 1, none, []⟩)
      (fetch_contratacoes_multi_modalidade (fun _ => .ok ⟨some 1, none, []⟩)
        [] "20240101" "20240131" [6] none).2.1
      "20240101" "20240131" [6] none).2.2 = 1 ∧
    ¬ (fetch_contratacoes_multi_modalidade (fun _ => .ok ⟨some 1, none, []⟩)
      (fetch_contratacoes_multi_modalidade (fun _ => .ok ⟨some 1, none, []⟩)
        [] "20240101" "20240131" [6] none).2.1
      "20240101" "20240131" [6] none).2.2 = 0 := ⟨by decide, by decide⟩

/-- C1 amended: `fetch_contratacoes_multi_modalidade` consults no cache of
results; calling it twice for the same key (same window, modalidades and
dispute mode) against an unchanged server re-issues exactly the same
number of network calls the first call made and returns identical results.
The only state carried over, the negotiated page-size dict, changes
neither the records returned nor the number of calls. -/
theorem C1_no_result_cache (server : PageParams → Except FetchErr Payload)
    (cache : PSCache) (hc : psCacheInv cache) (dIni dFim : String)
    (modalidades : List Nat) (modo : Option Nat) :
    (fetch_contratacoes_multi_modalidade server
        (fetch_contratacoes_multi_modalidade server cache dIni dFim modalidades modo).2.1
        dIni dFim modalidades modo).1 =
      (fetch_contratacoes_multi_modalidade server cache dIni dFim modalidades modo).1 ∧
    (fetch_contratacoes_multi_modalidade server
        (fetch_contratacoes_multi_modalidade server cache dIni dFim modalidades modo).2.1
        dIni dFim modalidades modo).2.2 =
      (fetch_contratacoes_multi_modalidade server cache dIni dFim modalidades modo).2.2 := by
  obtain ⟨c1, h1, hc1⟩ := multi_eval server hc dIni dFim modalidades modo
  rw [h1]
  dsimp only
  obtain ⟨c2, h2, _⟩ := multi_eval server hc1 dIni dFim modalidades modo
  rw [h2]
  exact ⟨rfl, rfl⟩

/-- Witness for the amended C1, from the empty initial cache. -/
theorem C1_no_result_cache_witness :
    (fetch_contratacoes_multi_modalidade (fun _ => .ok ⟨some 2, none, []⟩)
        (fetch_contratacoes_multi_modalidade (fun _ => .ok ⟨some 2, none, []⟩)
          [] "20240101" "20240131" [6, 8] none).2.1
        "20240101" "20240131" [6, 8] none).1 =
      (fetch_contratacoes_multi_modalidade (fun _ => .ok ⟨some 2, none, []⟩)
        [] "20240101" "20240131" [6, 8] none).1 ∧
    (fetch_contratacoes_multi_modalidade (fun _ => .ok ⟨some 2, none, []⟩)
        (fetch_contratacoes_multi_modalidade (fun _ => .ok ⟨some 2, none, []⟩)
          [] "20240101" "20240131" [6, 8] none).2.1
        "20240101" "20240131" [6, 8] none).2.2 =
      (fetch_contratacoes_multi_modalidade (fun _ => .ok ⟨some 2, none, []⟩)
        [] "20240101" "20240131" [6, 8] none).2.2 :=
  C1_no_result_cache (fun _ => .ok ⟨some 2, none, []⟩) [] psCacheInv_nil
    "20240101" "20240131" [6, 8] none

/-! ### Claim C5: the page-size error classification -/

/-- C5 counterexample: the negotiation loop given candidates
`[50, 10]` and a server rejecting size 50 with a 400 whose message is not
size-related (`"Data inicial invalida"`) does not propagate the failure:
it classifies it as a size problem (the message test matches the substring
`"400"`), tries the next candidate, and succeeds after 2 calls. -/
theorem C5_negotiation_counterexample :
    (negotiateLoop
      (fun p => if p.tamanhoPagina = some 50
        then .error (.http 400 "url" "Data inicial invalida")
        else .ok ⟨some 1, none, []⟩)
      (fun ps => mkParams "20240101" "20240131" 6 none 1 ps) (6, none) [] none
      [some 50, some 10]).2.2 = 2 ∧
    (negotiateLoop
      (fun p => if p.tamanhoPagina = some 50
        then .error (.http 400 "url" "Data inicial invalida")
        else .ok ⟨some 1, none, []⟩)
      (fun ps => mkParams "20240101" "20240131" 6 none 1 ps) (6, none) [] none
      [some 50, some 10]).1 = .ok ⟨some 1, none, []⟩ ∧
    ¬ (negotiateLoop
      (fun p => if p.tamanhoPagina = some 50
        then .error (.http 400 "url" "Data inicial invalida")
        else .ok ⟨some 1, none, []⟩)
      (fun ps => mkParams "20240101" "20240131" 6 none 1 ps) (6, none) [] none
      [some 50, some 10]).1 = .error (.http 400 "url" "Data inicial invalida") :=
  ⟨by decide, by decide, by decide⟩

/-- C5 amended: the loop classifies an `HTTPError` as size-related iff its
message contains `"Tamanho de página inválido"` or the substring `"400"`.
An `HTTPError` failing that test propagates immediately, and so does any
non-`HTTPError` exception (the `except` clause does not catch it); but
every status-400 error passes the test — its message embeds the status
code — so any 400, size-related or not, causes the next candidate to be
tried instead of propagating. -/
theorem C5_error_classification (server : PageParams → Except FetchErr Payload)
    (baseP : Option Nat → PageParams) (key : Nat × Option Nat) (cache : PSCache)
    (lastErr : Option FetchErr) (ps : Option Nat) (rest : List (Option Nat))
    (s : Nat) (uu bb : String)
    (h : server (baseP ps) = .error (.http s uu bb)) :
    (isSizeRetryMsg (FetchErr.msgOf s uu bb) = false →
      negotiateLoop server baseP key cache lastErr (ps :: rest)
        = (.error (.http s uu bb), cache, 1)) ∧
    (s = 400 → isSizeRetryMsg (FetchErr.msgOf s uu bb) = true ∧
      negotiateLoop server baseP key cache lastErr (ps :: rest)
        = ((negotiateLoop server baseP key cache (some (.http s uu bb)) rest).1,
           (negotiateLoop server baseP key cache (some (.http s uu bb)) rest).2.1,
           (negotiateLoop server baseP key cache (some (.http s uu bb)) rest).2.2 + 1)) ∧
    (∀ server2 : PageParams → Except FetchErr Payload,
      server2 (baseP ps) = .error .transport →
      negotiateLoop server2 baseP key cache lastErr (ps :: rest)
        = (.error .transport, cache, 1)) := by
  refine ⟨?_, ?_, ?_⟩
  · intro hsz
    unfold negotiateLoop
    rw [h]
    dsimp only
    rw [if_neg (by rw [hsz]; exact Bool.false_ne_true)]
  · intro hs
    subst hs
    refine ⟨isSizeRetryMsg_status400 uu bb, ?_⟩
    rw [negotiateLoop.eq_def]
    dsimp only
    rw [h]
    dsimp only
    rw [if_pos (isSizeRetryMsg_status400 uu bb)]
  · intro server2 h2
    unfold negotiateLoop
    rw [h2]

/-- Witness for the amended C5 at a concrete non-size 400. -/
theorem C5_error_classification_witness :
    (isSizeRetryMsg (FetchErr.msgOf 400 "url" "Data inicial invalida") = false →
      negotiateLoop (fun _ => .error (.http 400 "url" "Data inicial invalida"))
        (fun ps => mkParams "20240101" "20240131" 6 none 1 ps) (6, none) [] none
        [some 50]
        = (.error (.http 400 "url" "Data inicial invalida"), [], 1)) ∧
    ((400 : Nat) = 400 →
      isSizeRetryMsg (FetchErr.msgOf 400 "url" "Data inicial invalida") = true ∧
      negotiateLoop (fun _ => .error (.http 400 "url" "Data inicial invalida"))
        (fun ps => mkParams "20240101" "20240131" 6 none 1 ps) (6, none) [] none
        [some 50]
        = ((negotiateLoop (fun _ => .error (.http 400 "url" "Data inicial invalida"))
            (fun ps => mkParams "20240101" "20240131" 6 none 1 ps) (6, none) []
            (some (.http 400 "url" "Data inicial invalida")) []).1,
          (negotiateLoop (fun _ => .error (.http 400 "url" "Data inicial invalida"))
            (fun ps => mkParams "20240101" "20240131" 6 none 1 ps) (6, none) []
            (some (.http 400 "url" "Data inicial invalida")) []).2.1,
          (negotiateLoop (fun _ => .error (.http 400 "url" "Data inicial invalida"))
            (fun ps => mkParams "20240101" "20240131" 6 none 1 ps) (6, none) []
            (some (.http 400 "url" "Data inicial invalida")) []).2.2 + 1)) ∧
    (∀ server2 : PageParams → Except FetchErr Payload,
      server2 (mkParams "20240101" "20240131" 6 none 1 (some 50)) = .error .transport →
      negotiateLoop server2
        (fun ps => mkParams "20240101" "20240131" 6 none 1 ps) (6, none) [] none
        [some 50]
        = (.error .transport, [], 1)) :=
  C5_error_classification (fun _ => .error (.http 400 "url" "Data inicial invalida"))
    (fun ps => mkParams "20240101" "20240131" 6 none 1 ps) (6, none) [] none
    (some 50) [] 400 "url" "Data inicial invalida" rfl

/-! ### Claim C8: partial failures drop only the failing unit -/

/-- C8: a failing page drops only that page and a failing record drops only
that record.  If page `q` of `2..total` fails and every other page
succeeds, `fetch_all_pages_for_modalidade` still returns the records of all
other pages, with only page `q`'s contribution empty; if the item oracle
fails for id `x` and succeeds for every other id, `fetch_itens_para_ids`
returns the items of every other id, with only `x`'s contribution empty.
Both functions are total in the model: the run continues past the failure
(`except` clauses in the source log and drop the unit). -/
theorem C8_partial_failure (server : PageParams → Except FetchErr Payload)
    (cache : PSCache) (hc : psCacheInv cache)
    (total : Nat) (dIni dFim : String) (modalidade : Nat) (modo : Option Nat)
    (q : Nat) (e : FetchErr) (pl : Nat → Payload)
    (hq : pageVerdict server dIni dFim modalidade modo q = .error e)
    (hok : ∀ p ∈ List.range' 2 (total - 1), p ≠ q →
      pageVerdict server dIni dFim modalidade modo p = .ok (pl p))
    {α : Type} (oracle : String → Except Unit (List α)) (ids : List (String × String))
    (x : String) (its : String → List α)
    (hx : oracle x = .error ())
    (hids : ∀ i ∈ ids, i.1 ≠ x → oracle i.1 = .ok (its i.1)) :
    (fetch_all_pages_for_modalidade server cache total dIni dFim modalidade modo).1
      = flatCollect (fun p => if p = q then [] else (pl p).data)
          (List.range' 2 (total - 1)) ∧
    (fetch_itens_para_ids oracle ids).1
      = flatCollect (fun i => if i.1 = x then [] else its i.1) ids := by
  constructor
  · obtain ⟨c', hfa, _⟩ := fetch_all_pages_eval server hc total dIni dFim modalidade modo
    rw [hfa]
    dsimp only
    unfold fapData
    by_cases h1 : total ≤ 1
    · rw [if_pos h1]
      rw [show total - 1 = 0 from by omega]
      rfl
    · rw [if_neg h1]
      refine flatCollect_congr ?_
      intro p hp
      by_cases hpq : p = q
      · subst hpq
        unfold pageDataOf
        rw [hq, if_pos rfl]
      · unfold pageDataOf
        rw [hok p hp hpq, if_neg hpq]
  · rw [fetch_itens_eq, (itensFold_eval oracle ids).1]
    refine flatCollect_congr ?_
    intro i hi
    by_cases hix : i.1 = x
    · rw [hix, hx, if_pos rfl]
    · rw [hids i hi hix, if_neg hix]

/-- Witness for C8: pages `[2, 3]` with page 2 failing, ids `x` and `y`
with `x` failing. -/
theorem C8_partial_failure_witness :
    (fetch_all_pages_for_modalidade
      (fun p => if p.pagina = 2 then .error .transport else .ok ⟨some 1, none, []⟩)
      [] 3 "20240101" "20240131" 6 none).1
      = flatCollect (fun p => if p = 2 then []
          else (⟨some 1, none, []⟩ : Payload).data) (List.range' 2 (3 - 1)) ∧
    (fetch_itens_para_ids
      (fun s => if s = "x" then .error () else .ok [1])
      [("x", "x"), ("y", "y")]).1
      = flatCollect (fun i => if i.1 = "x" then [] else [1]) [("x", "x"), ("y", "y")] :=
  C8_partial_failure
    (fun p => if p.pagina = 2 then .error .transport else .ok ⟨some 1, none, []⟩)
    [] psCacheInv_nil 3 "20240101" "20240131" 6 none 2 .transport
    (fun _ => ⟨some 1, none, []⟩) (by decide) (by decide)
    (fun s => if s = "x" then .error () else .ok [1]) [("x", "x"), ("y", "y")]
    "x" (fun _ => [1]) (by decide) (by decide)

/-! ### Dedup lemmas for the record-id stage -/

theorem collect_ids_aux_cons (seen : List String) (c : Rec) (rest : List Rec) :
    collect_ids_aux seen (c :: rest) =
      match derive_id c with
      | none => collect_ids_aux seen rest
      | some idp =>
        if idp ∈ seen then collect_ids_aux seen rest
        else idp :: collect_ids_aux (idp :: seen) rest := rfl

theorem collect_ids_aux_mem :
    ∀ (rs : List Rec) (seen : List String) (idp : String),
      idp ∈ collect_ids_aux seen rs ↔
        (idp ∉ seen ∧ ∃ c ∈ rs, derive_id c = some idp) := by
  intro rs
  induction rs with
  | nil =>
    intro seen idp
    simp [collect_ids_aux]
  | cons c rest ih =>
    intro seen idp
    rw [collect_ids_aux_cons]
    cases hd : derive_id c with
    | none =>
      dsimp only
      rw [ih]
      constructor
      · rintro ⟨h1, c', hc', hdc⟩
        exact ⟨h1, c', List.mem_cons_of_mem _ hc', hdc⟩
      · rintro ⟨h1, c', hc', hdc⟩
        rcases List.mem_cons.mp hc' with rfl | hmem
        · rw [hd] at hdc
          exact absurd hdc (by simp)
        · exact ⟨h1, c', hmem, hdc⟩
    | some j =>
      dsimp only
      by_cases hj : j ∈ seen
      · rw [if_pos hj, ih]
        constructor
        · rintro ⟨h1, c', hc', hdc⟩
          exact ⟨h1, c', List.mem_cons_of_mem _ hc', hdc⟩
        · rintro ⟨h1, c', hc', hdc⟩
          rcases List.mem_cons.mp hc' with rfl | hmem
          · rw [hd] at hdc
            injection hdc with hji
            subst hji
            exact absurd hj h1
          · exact ⟨h1, c', hmem, hdc⟩
      · rw [if_neg hj, List.mem_cons, ih]
        constructor
        · rintro (rfl | ⟨h1, c', hc', hdc⟩)
          · exact ⟨hj, c, List.mem_cons_self _ _, hd⟩
          · exact ⟨fun hmem => h1 (List.mem_cons_of_mem _ hmem),
              c', List.mem_cons_of_mem _ hc', hdc⟩
        · rintro ⟨h1, c', hc', hdc⟩
          rcases List.mem_cons.mp hc' with rfl | hmem
          · rw [hd] at hdc
            injection hdc with hji
            exact Or.inl hji.symm
          · by_cases hij : idp = j
            · exact Or.inl hij
            · refine Or.inr ⟨?_, c', hmem, hdc⟩
              intro hmem2
              rcases List.mem_cons.mp hmem2 with h | h
              · exact hij h
              · exact h1 h

theorem collect_ids_aux_nodup_disjoint :
    ∀ (rs : List Rec) (seen : List String),
      (collect_ids_aux seen rs).Nodup ∧
        ∀ idp ∈ collect_ids_aux seen rs, idp ∉ seen := by
  intro rs
  induction rs with
  | nil =>
    intro seen
    exact ⟨List.nodup_nil, by simp [collect_ids_aux]⟩
  | cons c rest ih =>
    intro seen
    rw [collect_ids_aux_cons]
    cases hd : derive_id c with
    | none => exact ih seen
    | some j =>
      dsimp only
      by_cases hj : j ∈ seen
      · rw [if_pos hj]
        exact ih seen
      · rw [if_neg hj]
        obtain ⟨hnd, hdisj⟩ := ih (j :: seen)
        refine ⟨List.nodup_cons.mpr
          ⟨fun hmem => (hdisj j hmem) (List.mem_cons_self _ _), hnd⟩, ?_⟩
        intro idp hmem
        rcases List.mem_cons.mp hmem with rfl | hmem2
        · exact hj
        · exact fun hs2 => (hdisj idp hmem2) (List.mem_cons_of_mem _ hs2)

theorem collect_ids_mem (rs : List Rec) (idp : String) :
    idp ∈ collect_ids rs ↔ ∃ c ∈ rs, derive_id c = some idp := by
  unfold collect_ids
  rw [collect_ids_aux_mem]
  simp

theorem collect_ids_nodup (rs : List Rec) : (collect_ids rs).Nodup :=
  (collect_ids_aux_nodup_disjoint rs []).1

theorem derivedIds_length_of_all_some :
    ∀ rs : List Rec, (∀ c ∈ rs, (derive_id c).isSome = true) →
      (derivedIds rs).length = rs.length := by
  intro rs
  induction rs with
  | nil => intro _; rfl
  | cons c rest ih =>
    intro hall
    obtain ⟨j, hj⟩ := Option.isSome_iff_exists.mp (hall c (List.mem_cons_self _ _))
    have hr := ih (fun c' hc' => hall c' (List.mem_cons_of_mem _ hc'))
    unfold derivedIds at hr ⊢
    rw [List.filterMap_cons, hj]
    dsimp only
    rw [List.length_cons, List.length_cons, hr]

theorem collect_ids_toFinset (rs : List Rec) :
    (collect_ids rs).toFinset = (derivedIds rs).toFinset := by
  ext idp
  rw [List.mem_toFinset, List.mem_toFinset, collect_ids_mem]
  unfold derivedIds
  rw [List.mem_filterMap]

theorem length_filter_ne_add_count (x : String) :
    ∀ l : List String,
      (l.filter (fun y => decide (y ≠ x))).length + l.count x = l.length := by
  intro l
  induction l with
  | nil => rfl
  | cons a as ih =>
    rw [List.filter_cons, List.count_cons]
    by_cases hax : a = x
    · subst hax
      rw [if_neg (by simp), if_pos (by simp), List.length_cons]
      omega
    · rw [if_pos (by simp [hax]), if_neg (by simp [hax]), List.length_cons, List.length_cons]
      omega

/-! ### Claim C7: deduplication before the item fetches -/

/-- C7: the dedup loop of the main stage produces a duplicate-free id list
containing exactly the ids derivable from the input records; the item
fetcher then issues exactly one network call per surviving id (its call
log is that very list, built before any call is issued); and when all `N`
records derive an id, `M >= 1` of them share the id `x` and the remaining
ids are pairwise distinct, exactly `N - M + 1` calls are issued. -/
theorem C7_dedup (rs : List Rec) (oracle : String → Except Unit (List Nat))
    (x : String) (N M : Nat)
    (hall : ∀ c ∈ rs, (derive_id c).isSome = true)
    (hN : rs.length = N)
    (hM : (derivedIds rs).count x = M)
    (hM1 : 1 ≤ M)
    (hnd : ((derivedIds rs).filter (fun y => decide (y ≠ x))).Nodup) :
    (collect_ids rs).Nodup ∧
    (∀ idp, idp ∈ collect_ids rs ↔ ∃ c ∈ rs, derive_id c = some idp) ∧
    (fetch_itens_para_ids oracle ((collect_ids rs).map (fun i => (i, i)))).2
      = collect_ids rs ∧
    (collect_ids rs).length = N - M + 1 := by
  refine ⟨collect_ids_nodup rs, fun idp => collect_ids_mem rs idp, ?_, ?_⟩
  · rw [fetch_itens_eq, (itensFold_eval oracle _).2, List.map_map]
    have hcomp : ((fun i : String × String => i.1) ∘ fun i : String => (i, i)) = id := rfl
    rw [hcomp, List.map_id]
  · have hlen : (derivedIds rs).length = N := by
      rw [derivedIds_length_of_all_some rs hall, hN]
    have hxmem : x ∈ derivedIds rs := List.count_pos_iff.mp (by omega)
    have h1 : (collect_ids rs).length = (collect_ids rs).toFinset.card := by
      rw [List.card_toFinset, (collect_ids_nodup rs).dedup]
    have h3 : (derivedIds rs).toFinset
        = insert x ((derivedIds rs).filter (fun y => decide (y ≠ x))).toFinset := by
      ext idp
      rw [List.mem_toFinset, Finset.mem_insert, List.mem_toFinset, List.mem_filter]
      constructor
      · intro hmem
        by_cases hix : idp = x
        · exact Or.inl hix
        · exact Or.inr ⟨hmem, by simp [hix]⟩
      · rintro (rfl | ⟨hmem, _⟩)
        · exact hxmem
        · exact hmem
    have hxnot : x ∉ ((derivedIds rs).filter (fun y => decide (y ≠ x))).toFinset := by
      rw [List.mem_toFinset, List.mem_filter]
      rintro ⟨_, hx2⟩
      simp at hx2
    have h4 : ((derivedIds rs).filter (fun y => decide (y ≠ x))).toFinset.card
        = ((derivedIds rs).filter (fun y => decide (y ≠ x))).length := by
      rw [List.card_toFinset, hnd.dedup]
    have h5 := length_filter_ne_add_count x (derivedIds rs)
    rw [h1, collect_ids_toFinset, h3, Finset.card_insert_of_not_mem hxnot, h4]
    omega

/-- Witness for C7: three records, two of which share the id `11/2024/1`
derived from their control numbers. -/
theorem C7_dedup_witness :
    (collect_ids [⟨some "11-1/2024", none, none, none, none⟩,
      ⟨some "11-01/2024", none, none, none, none⟩,
      ⟨some "22-7/2024", none, none, none, none⟩]).Nodup ∧
    (∀ idp, idp ∈ collect_ids [⟨some "11-1/2024", none, none, none, none⟩,
        ⟨some "11-01/2024", none, none, none, none⟩,
        ⟨some "22-7/2024", none, none, none, none⟩] ↔
      ∃ c ∈ [(⟨some "11-1/2024", none, none, none, none⟩ : Rec),
        ⟨some "11-01/2024", none, none, none, none⟩,
        ⟨some "22-7/2024", none, none, none, none⟩], derive_id c = some idp) ∧
    (fetch_itens_para_ids (fun _ => .ok [1])
      ((collect_ids [⟨some "11-1/2024", none, none, none, none⟩,
        ⟨some "11-01/2024", none, none, none, none⟩,
        ⟨some "22-7/2024", none, none, none, none⟩]).map (fun i => (i, i)))).2
      = collect_ids [⟨some "11-1/2024", none, none, none, none⟩,
        ⟨some "11-01/2024", none, none, none, none⟩,
        ⟨some "22-7/2024", none, none, none, none⟩] ∧
    (collect_ids [⟨some "11-1/2024", none, none, none, none⟩,
      ⟨some "11-01/2024", none, none, none, none⟩,
      ⟨some "22-7/2024", none, none, none, none⟩]).length = 3 - 2 + 1 :=
  C7_dedup _ (fun _ => .ok [1]) "11/2024/1" 3 2
    (by decide) (by decide) (by decide) (by decide) (by decide)

/-! ### Claim C10: records with an underivable id are silently skipped -/

theorem collect_ids_aux_skip {c : Rec} (hd : derive_id c = none) :
    ∀ (pre post : List Rec) (seen : List String),
      collect_ids_aux seen (pre ++ c :: post) = collect_ids_aux seen (pre ++ post) := by
  intro pre
  induction pre with
  | nil =>
    intro post seen
    rw [List.nil_append, List.nil_append, collect_ids_aux_cons, hd]
  | cons r pre' ih =>
    intro post seen
    rw [List.cons_append, List.cons_append, collect_ids_aux_cons, collect_ids_aux_cons]
    cases hr : derive_id r with
    | none => exact ih post seen
    | some j =>
      dsimp only
      by_cases hj : j ∈ seen
      · rw [if_pos hj, if_pos hj]
        exact ih post seen
      · rw [if_neg hj, if_neg hj]
        exact congrArg (j :: ·) (ih post (j :: seen))

/-- C10: a record whose control number is absent or malformed
(`controlNumberUnusable`) and which misses one of the fallback fields
(organization CNPJ, record year, sequence number) derives no id and is
silently skipped: the collected id list of any batch containing it equals
that of the batch without it, so no item-endpoint call is ever issued for
it (the item fetcher's call log is unchanged) and it reaches no report.
All functions involved are total — no error is raised — and the skip is
not counted anywhere. -/
theorem C10_underivable_skipped (c : Rec)
    (h1 : controlNumberUnusable c = true)
    (h2 : c.orgCnpj = none ∨ c.anoCompra = none ∨ c.sequencialCompra = none) :
    derive_id c = none ∧
    (∀ pre post : List Rec, collect_ids (pre ++ c :: post) = collect_ids (pre ++ post)) ∧
    (∀ (oracle : String → Except Unit (List Nat)) (pre post : List Rec),
      (fetch_itens_para_ids oracle
        ((collect_ids (pre ++ c :: post)).map (fun i => (i, i)))).2 =
      (fetch_itens_para_ids oracle
        ((collect_ids (pre ++ post)).map (fun i => (i, i)))).2) := by
  have hfb : (match c.orgCnpj, c.anoCompra, c.sequencialCompra with
      | some cnpj, some ano, some seq => some (cnpj ++ "/" ++ ano ++ "/" ++ seq)
      | _, _, _ => (none : Option String)) = none := by
    cases hco : c.orgCnpj <;> cases hca : c.anoCompra <;> cases hcs : c.sequencialCompra <;>
      first
        | rfl
        | (rcases h2 with h | h | h <;> simp_all)
  have hd : derive_id c = none := by
    unfold derive_id
    unfold controlNumberUnusable at h1
    cases hnc : pyOr c.numeroControlePncp c.numeroControlePNCP with
    | none => exact hfb
    | some raw =>
      rw [hnc] at h1
      have h1' : (format_id_pncp_from_numero_controle raw).isNone = true := h1
      have hfmt : format_id_pncp_from_numero_controle raw = none :=
        Option.isNone_iff_eq_none.mp h1'
      dsimp only
      rw [hfmt]
      exact hfb
  have hskip : ∀ pre post : List Rec,
      collect_ids (pre ++ c :: post) = collect_ids (pre ++ post) := by
    intro pre post
    unfold collect_ids
    exact collect_ids_aux_skip hd pre post []
  refine ⟨hd, hskip, ?_⟩
  intro oracle pre post
  rw [hskip pre post]

/-- Witness for C10: control number `"abc"` (no slash, malformed) and a
record missing `anoCompra`. -/
theorem C10_underivable_skipped_witness :
    derive_id ⟨some "abc", none, some "11", none, some "9"⟩ = none ∧
    (∀ pre post : List Rec,
      collect_ids (pre ++ (⟨some "abc", none, some "11", none, some "9"⟩ : Rec) :: post)
        = collect_ids (pre ++ post)) ∧
    (∀ (oracle : String → Except Unit (List Nat)) (pre post : List Rec),
      (fetch_itens_para_ids oracle
        ((collect_ids (pre ++ (⟨some "abc", none, some "11", none, some "9"⟩ : Rec) :: post)).map
          (fun i => (i, i)))).2 =
      (fetch_itens_para_ids oracle
        ((collect_ids (pre ++ post)).map (fun i => (i, i)))).2) :=
  C10_underivable_skipped ⟨some "abc", none, some "11", none, some "9"⟩
    (by decide) (by decide)

end Pncp
